import Mathlib

/-!
# qri: command-line and HTTP front ends of the dataset operations

A shallow embedding of `cmd/get.go`, `cmd/add.go`, `cmd/registry.go`, `cmd/render.go`,
`cmd/info.go`, `cmd/qri.go` and `api/datasets.go`, followed by the properties proved about
them.

Conventions of the embedding

* Go `string` values are Lean `String`s, Go slices are `List`s.
* A Go `error` is a value of `Error`; a nil error is `none : Option Error`.
* A function `f(..) (T, error)` that either yields a value or fails is `Except Error T`.
* Calls into packages that are not part of these files (`repo`, `core`/`lib`, `encoding/json`,
  `net/http`) are fields of an environment record, so every statement holds for each
  implementation of them.  Calls that may change the repository thread a state of type `σ`.
* Every handler returns the calls it made, in order, together with the response it wrote.
-/

set_option autoImplicit false

namespace Qri

/-! ## Shared data model -/

/-- Go error values: built by `errors.New` / `fmt.Errorf` (the rendered text), or by
`lib.NewError` (a cause together with a user message). -/
inductive Error where
  | new (text : String)
  | libError (cause : Error) (message : String)
  deriving DecidableEq, Repr, Inhabited

deriving instance DecidableEq for Except

/-- Text rendered by `err.Error()`; an error made by `lib.NewError` is taken to render as its
cause.  Only used where a handler formats the error of a failed form file look-up. -/
def Error.text : Error → String
  | .new t => t
  | .libError c _ => c.text

/-- Modelled from the spec: `repo.DatasetRef`, whose declaration lives in package `repo`.
The spec gives the identity `{Peername, Name, ProfileID, Path}`; the handlers also read the
loaded `Dataset` (kept here as its encoded form, `none` for a nil pointer). -/
structure DatasetRef where
  Peername : String := ""
  Name : String := ""
  ProfileID : String := ""
  Path : String := ""
  Dataset : Option String := none
  deriving DecidableEq, Repr, Inhabited

/-! ## `cmd/get.go` -/

/-- The fragment of Go `regexp` syntax used by `cmd/get.go`: an alternation of literal words,
optionally under the `(?i)` flag. -/
structure Regexp where
  foldCase : Bool
  alternatives : List String
  deriving Repr

/-- Whether input rune `c` is accepted for pattern rune `p`.  Under `(?i)` Go accepts every
rune in the simple case-folding orbit of `p`: for an ASCII letter that is the letter in both
cases, plus U+017F (long s) for `s` and U+212A (Kelvin sign) for `k`. -/
def runeMatches (foldCase : Bool) (p c : Char) : Bool :=
  c == p ||
    (foldCase &&
      (c == p.toUpper || c == p.toLower ||
        (p.toLower == 's' && c == Char.ofNat 0x17F) ||
        (p.toLower == 'k' && c == Char.ofNat 0x212A)))

/-- The literal `w` matches at the very start of `s`. -/
def literalAt (foldCase : Bool) : List Char → List Char → Bool
  | [], _ => true
  | _ :: _, [] => false
  | p :: ps, c :: cs => runeMatches foldCase p c && literalAt foldCase ps cs

/-- Some alternative of the expression matches at the very start of `s`. -/
def Regexp.matchesAt (re : Regexp) (s : List Char) : Bool :=
  re.alternatives.any (fun w => literalAt re.foldCase w.data s)

/-- Unanchored search: a match may start at any position of the input. -/
def Regexp.search (re : Regexp) : List Char → Bool
  | [] => re.matchesAt []
  | c :: cs => re.matchesAt (c :: cs) || re.search cs

/-- Go `(*Regexp).MatchString`: reports whether the string contains any match. -/
def Regexp.MatchString (re : Regexp) (s : String) : Bool :=
  re.search s.data

/-- The package variable
`isDatasetField = regexp.MustCompile("(?i)commit|structure|body|meta|viz|transform")`. -/
def isDatasetField : Regexp :=
  { foldCase := true
    alternatives := ["commit", "structure", "body", "meta", "viz", "transform"] }

/-- The interface `Factory`, as far as `Complete` uses it: the pair returned by
`f.DatasetRequests()`, a possibly nil handle and a possibly nil error. -/
structure Factory (DR : Type) where
  DatasetRequests : Option DR × Option Error

/-- The struct `GetOptions` (the embedded `IOStreams` are not read by `Complete`). -/
structure GetOptions (DR : Type) where
  Refs : List String := []
  Path : String := ""
  Format : String := ""
  Concise : Bool := false
  DatasetRequests : Option DR := none

/-- The method `(*GetOptions).Complete`: the updated receiver and the returned error. -/
def GetOptions.Complete {DR : Type} (o : GetOptions DR) (f : Factory DR) (args : List String) :
    GetOptions DR × Option Error :=
  let (o, args) :=
    match args with
    | [] => (o, args)
    | a :: rest =>
      if isDatasetField.MatchString a then ({ o with Path := a }, rest) else (o, a :: rest)
  let (dr, err) := f.DatasetRequests
  ({ o with Refs := args, DatasetRequests := dr }, err)

/-! ## Commands that take a list of references: `cmd/add.go`, `cmd/registry.go` -/

/-- The struct `lib.PublishParams`, as built by `Publish` (its `Pin` field is left unset). -/
structure PublishParams where
  Ref : DatasetRef
  Pin : Bool := false
  deriving DecidableEq, Repr

/-- The type `dataset.DataFormat`, an integer enumeration in Go. -/
abbrev DataFormat := Int

/-- What the commands call outside their own files.  `ParseDatasetRef` is
`repo.ParseDatasetRef`, `IsPeerRef` the method of `repo.DatasetRef`, `ParseDataFormatString`
and `JSONDataFormat` come from package `dataset`, `MarshalIndent` is `json.MarshalIndent` on a
dataset, and `Add`, `Get`, `Publish`, `Unpublish` are the request methods of
`lib.DatasetRequests` and `lib.RegistryRequests`, run against a repository state `σ`. -/
structure Requests (σ : Type) where
  ParseDatasetRef : String → Except Error DatasetRef
  parseCmdLineDatasetRef : String → Except Error DatasetRef
  IsPeerRef : DatasetRef → Bool
  ParseDataFormatString : String → Except Error DataFormat
  JSONDataFormat : DataFormat
  MarshalIndent : Option String → Except Error String
  Add : σ → DatasetRef → Except Error DatasetRef × σ
  Get : σ → DatasetRef → Except Error DatasetRef × σ
  Publish : σ → PublishParams → Except Error Bool × σ
  Unpublish : σ → DatasetRef → Except Error Bool × σ

/-- What a command does that can be observed: the requests it issues, each with the error it
got back (`none` for nil), and what it prints on `o.Out`. -/
inductive CmdEvent where
  | Add (ref : DatasetRef) (err : Option Error)
  | Get (ref : DatasetRef) (err : Option Error)
  | Publish (p : PublishParams) (err : Option Error)
  | Unpublish (ref : DatasetRef) (err : Option Error)
  | printInfo (format : String) (ref : DatasetRef)
  | printWarning (format : String) (arg : String)
  | printDatasetRefInfo (i : Nat) (ref : DatasetRef)
  | Fprintf (format : String) (arg : String)
  deriving DecidableEq, Repr

/-- How a command ends: it returns its error value, or the process exits inside
`ExitIfErr`. -/
inductive Outcome where
  | returned (err : Option Error)
  | exit (err : Error)
  deriving DecidableEq, Repr

/-- The result of running a command: the final state, the events in order, the outcome. -/
structure CmdResult (σ : Type) where
  state : σ
  events : List CmdEvent
  outcome : Outcome

/-- Puts events that happened first in front of the events of the rest of a run. -/
def CmdResult.after {σ : Type} (evs : List CmdEvent) (r : CmdResult σ) : CmdResult σ :=
  { r with events := evs ++ r.events }

/-- The method `(*AddOptions).Run`. -/
def AddOptions.Run {σ : Type} (o : Requests σ) (s : σ) : List String → CmdResult σ
  | [] => ⟨s, [], .returned none⟩
  | arg :: args =>
    match o.parseCmdLineDatasetRef arg with
    | .error err => ⟨s, [], .returned (some err)⟩
    | .ok ref =>
      match o.Add s ref with
      | (.error err, s1) => ⟨s1, [.Add ref (some err)], .returned (some err)⟩
      | (.ok res, s1) =>
        (AddOptions.Run o s1 args).after
          [.Add ref none, .printDatasetRefInfo 1 res,
            .printInfo "Successfully added dataset %s" ref]

/-- The method `(*RegistryOptions).Publish`, on the `Refs` stored by `Complete`. -/
def RegistryOptions.Publish {σ : Type} (o : Requests σ) (s : σ) : List String → CmdResult σ
  | [] => ⟨s, [], .returned none⟩
  | arg :: args =>
    match o.ParseDatasetRef arg with
    | .error err => ⟨s, [], .returned (some err)⟩
    | .ok ref =>
      match o.Publish s { Ref := ref } with
      | (.error err, s1) => ⟨s1, [.Publish { Ref := ref } (some err)], .returned (some err)⟩
      | (.ok _, s1) =>
        (RegistryOptions.Publish o s1 args).after
          [.Publish { Ref := ref } none, .printInfo "published dataset %s" ref]

/-- The method `(*RegistryOptions).Unpublish`, on the `Refs` stored by `Complete`. -/
def RegistryOptions.Unpublish {σ : Type} (o : Requests σ) (s : σ) : List String → CmdResult σ
  | [] => ⟨s, [], .returned none⟩
  | arg :: args =>
    match o.ParseDatasetRef arg with
    | .error err => ⟨s, [], .returned (some err)⟩
    | .ok ref =>
      match o.Unpublish s ref with
      | (.error err, s1) => ⟨s1, [.Unpublish ref (some err)], .returned (some err)⟩
      | (.ok _, s1) =>
        (RegistryOptions.Unpublish o s1 args).after
          [.Unpublish ref none, .printInfo "unpublished dataset %s" ref]

/-- The request made by an event, with the reference it carries and the error it returned;
`none` for an event that only prints. -/
def CmdEvent.request? : CmdEvent → Option (DatasetRef × Option Error)
  | .Add ref err => some (ref, err)
  | .Get ref err => some (ref, err)
  | .Publish p err => some (p.Ref, err)
  | .Unpublish ref err => some (ref, err)
  | _ => none

/-- The requests of a run, in the order they were issued. -/
def CmdResult.requests {σ : Type} (r : CmdResult σ) : List (DatasetRef × Option Error) :=
  r.events.filterMap CmdEvent.request?

/-- Issues `req` for each reference in turn, starting in state `s`: the state reached when all
of them succeed, `none` as soon as one fails. -/
def allSucceed {σ β : Type} (req : σ → DatasetRef → Except Error β × σ) :
    σ → List DatasetRef → Option σ
  | s, [] => some s
  | s, ref :: refs =>
    match req s ref with
    | (.ok _, s1) => allSucceed req s1 refs
    | (.error _, _) => none

/-- The contract of a command over a list of arguments, for the parser `parse` and the request
`req`: the arguments split into a prefix `done` whose references `refs` all parsed and whose
requests all succeeded, one request each, in order; then either the list is exhausted and nil is
returned, or the next argument fails to parse, or its request fails, and that error is
returned with no request issued for any later argument. -/
def StopsAtFirstError {σ β : Type} (parse : String → Except Error DatasetRef)
    (req : σ → DatasetRef → Except Error β × σ) (s : σ) (args : List String)
    (r : CmdResult σ) : Prop :=
  ∃ (done : List String) (refs : List DatasetRef) (s1 : σ),
    List.Forall₂ (fun a ref => parse a = .ok ref) done refs ∧
    allSucceed req s refs = some s1 ∧
    ((args = done ∧ r.outcome = .returned none ∧ r.state = s1 ∧
        r.requests = refs.map (fun ref => (ref, none))) ∨
      (∃ a rest err, args = done ++ a :: rest ∧ parse a = .error err ∧
        r.outcome = .returned (some err) ∧ r.state = s1 ∧
        r.requests = refs.map (fun ref => (ref, none))) ∨
      (∃ a rest ref err s2, args = done ++ a :: rest ∧ parse a = .ok ref ∧
        req s1 ref = (.error err, s2) ∧
        r.outcome = .returned (some err) ∧ r.state = s2 ∧
        r.requests = refs.map (fun ref => (ref, none)) ++ [(ref, some err)]))

/-- Every argument parses and every request, issued in order, succeeds. -/
def AllParseAndSucceed {σ β : Type} (parse : String → Except Error DatasetRef)
    (req : σ → DatasetRef → Except Error β × σ) (s : σ) (args : List String) : Prop :=
  ∃ (refs : List DatasetRef) (s1 : σ),
    List.Forall₂ (fun a ref => parse a = .ok ref) args refs ∧ allSucceed req s refs = some s1

/-- The loop that the three commands share, written once: parse the argument, issue the
request, stop at the first error, print after a success.  `ev` builds the event of the request
and `prints` the lines printed after it.  The commands above are shown equal to instances of
it. -/
def eachRef {σ β : Type} (parse : String → Except Error DatasetRef)
    (req : σ → DatasetRef → Except Error β × σ) (ev : DatasetRef → Option Error → CmdEvent)
    (prints : DatasetRef → β → List CmdEvent) : σ → List String → CmdResult σ
  | s, [] => ⟨s, [], .returned none⟩
  | s, arg :: args =>
    match parse arg with
    | .error err => ⟨s, [], .returned (some err)⟩
    | .ok ref =>
      match req s ref with
      | (.error err, s1) => ⟨s1, [ev ref (some err)], .returned (some err)⟩
      | (.ok res, s1) =>
        (eachRef parse req ev prints s1 args).after (ev ref none :: prints ref res)

/-! ## `cmd/render.go` -/

/-- The struct `RenderOptions` (without its streams and request handle). -/
structure RenderOptions where
  Ref : String := ""
  Template : String := ""
  Output : String := ""
  All : Bool := false
  Limit : Int := 0
  Offset : Int := 0
  deriving DecidableEq, Repr

/-- The method `(*RenderOptions).Complete`, as far as it changes the options: the second
component is the error of `f.RenderRequests()`. -/
def RenderOptions.Complete (o : RenderOptions) (factoryErr : Option Error) (args : List String) :
    RenderOptions × Option Error :=
  match args with
  | a :: _ => ({ o with Ref := a }, factoryErr)
  | [] => (o, factoryErr)

/-- The method `(*RenderOptions).Validate`; `ErrBadArgs` is the package's error value. -/
def RenderOptions.Validate (ErrBadArgs : Error) (o : RenderOptions) : Option Error :=
  if o.Ref = "" then
    some (.libError ErrBadArgs
      "peername and dataset name needed in order to render, for example:\n   $ qri render me/dataset_name\nsee `qri render --help` from more info")
  else none

/-! ## `cmd/info.go` -/

/-- The struct `InfoOptions` (without its streams and request handle). -/
structure InfoOptions where
  Refs : List String := []
  Format : String := ""
  deriving DecidableEq, Repr

/-- The loop of `(*InfoOptions).Run` over `o.Refs`, from index `i` on.  `ExitIfErr` ends the
process when `Get` returned an error. -/
def InfoOptions.runRefs {σ : Type} (env : Requests σ) (o : InfoOptions) :
    σ → Nat → List String → CmdResult σ
  | s, _, [] => ⟨s, [], .returned none⟩
  | s, i, refstr :: rest =>
    match env.ParseDatasetRef refstr with
    | .error err => ⟨s, [], .returned (some err)⟩
    | .ok ref =>
      if env.IsPeerRef ref then
        (InfoOptions.runRefs env o s (i + 1) rest).after
          [.printWarning "please specify a dataset for peer %s" ref.Peername]
      else
        match env.Get s ref with
        | (.error err, s1) => ⟨s1, [.Get ref (some err)], .exit err⟩
        | (.ok res, s1) =>
          if o.Format = "" then
            (InfoOptions.runRefs env o s1 (i + 1) rest).after
              [.Get ref none, .printDatasetRefInfo i res]
          else
            match env.MarshalIndent res.Dataset with
            | .error err => ⟨s1, [.Get ref none], .returned (some err)⟩
            | .ok data =>
              (InfoOptions.runRefs env o s1 (i + 1) rest).after
                [.Get ref none, .Fprintf "%s" data]

/-- The method `(*InfoOptions).Run`. -/
def InfoOptions.Run {σ : Type} (env : Requests σ) (o : InfoOptions) (s : σ) : CmdResult σ :=
  if o.Format ≠ "" then
    match env.ParseDataFormatString o.Format with
    | .error _ => ⟨s, [], .returned (some (.new ("invalid data format: " ++ o.Format)))⟩
    | .ok format =>
      if format ≠ env.JSONDataFormat then
        ⟨s, [], .returned (some (.new
          "invalid data format. currently only json or plaintext are supported"))⟩
      else InfoOptions.runRefs env o s 0 o.Refs
  else InfoOptions.runRefs env o s 0 o.Refs

/-! ## `api/datasets.go` -/

/-- Number of bytes of a rune in UTF-8. -/
def runeLen (c : Char) : Nat :=
  if c.toNat < 0x80 then 1 else if c.toNat < 0x800 then 2 else if c.toNat < 0x10000 then 3 else 4

/-- Go `len(s)` on a string: its length in bytes. -/
def byteLen (s : List Char) : Nat :=
  (s.map runeLen).sum

/-- Drops the first `n` bytes of a string.  (A rune cut in the middle is dropped whole; the
handlers only cut behind an ASCII route prefix.) -/
def dropBytes : Nat → List Char → List Char
  | 0, cs => cs
  | _ + 1, [] => []
  | n + 1, c :: cs => dropBytes (n + 1 - runeLen c) cs

/-- The Go slice expression `s[n:]` on a string; `none` is the run-time panic raised when `n`
exceeds `len(s)`. -/
def sliceFrom (s : String) (n : Nat) : Option String :=
  if n ≤ byteLen s.data then some ⟨dropBytes n s.data⟩ else none

/-- Whether `sub` occurs in `s` from some position on. -/
def containsFrom (sub : List Char) : List Char → Bool
  | [] => sub.isPrefixOf []
  | c :: cs => sub.isPrefixOf (c :: cs) || containsFrom sub cs

/-- Go `strings.Contains`. -/
def stringsContains (s sub : String) : Bool :=
  containsFrom sub.data s.data

/-- Status code `http.StatusBadRequest`. -/
def StatusBadRequest : Nat := 400

/-- Status code `http.StatusInternalServerError`. -/
def StatusInternalServerError : Nat := 500

/-- What `r.FormFile(key)` returns: `http.ErrMissingFile`, some other error, or the uploaded
part with the file name of its header. -/
inductive FormFileResult where
  | missing
  | failed (err : Error)
  | file (filename : String) (content : String)
  deriving DecidableEq, Repr

/-- The parts of an `*http.Request` the handlers read. -/
structure Request where
  Path : String
  ContentType : String := ""
  Body : String := ""
  FormValue : String → String := fun _ => ""
  FormFile : String → FormFileResult := fun _ => .missing

/-- A file made by `memfs.NewMemfileReader(name, reader)`. -/
structure Memfile where
  name : String
  content : String
  deriving DecidableEq, Repr

/-- The struct `core.SaveParams`, with the fields the handler sets; an unset file is nil. -/
structure SaveParams where
  Peername : String := ""
  URL : String := ""
  Name : String := ""
  Title : String := ""
  Message : String := ""
  Data : Option Memfile := none
  DataFilename : String := ""
  Metadata : Option Memfile := none
  MetadataFilename : String := ""
  Structure : Option Memfile := none
  StructureFilename : String := ""
  deriving DecidableEq, Repr

/-- The struct `saveParamsJSON`; a `json.RawMessage` is kept as its text. -/
structure saveParamsJSON where
  Peername : String := ""
  Name : String := ""
  Title : String := ""
  Message : String := ""
  Data : String := ""
  Meta : String := ""
  Structure : String := ""
  deriving DecidableEq, Repr

/-- Modelled from the spec: `core.ListParams`, declared in package `core`.  The spec describes
a list request as filtered by Peername, ordered by a selectable key and paginated. -/
structure ListParams where
  Peername : String := ""
  OrderBy : String := ""
  Limit : Int := 0
  Offset : Int := 0
  deriving DecidableEq, Repr

/-- The receiver `DatasetHandlers` together with the functions of other files and packages
that its handlers call: `DatasetRefFromPath`, `core.ListParamsFromRequest`, the method
`IsPeerRef`, the JSON decoding of a request body into `saveParamsJSON`, the outcome of
`util.WritePageResponse`, and the request methods `Get`, `List`, `Add`, `Save`, `Remove` of the
embedded `core.DatasetRequests`, run against a repository state `σ`. -/
structure DatasetHandlers (σ : Type) where
  DatasetRefFromPath : String → Except Error DatasetRef
  ListParamsFromRequest : Request → ListParams
  IsPeerRef : DatasetRef → Bool
  decodeSaveParams : String → Except Error saveParamsJSON
  writePageError : List DatasetRef → ListParams → Option Error
  Get : σ → DatasetRef → Except Error DatasetRef × σ
  List : σ → ListParams → Except Error (List DatasetRef) × σ
  Add : σ → DatasetRef → Except Error DatasetRef × σ
  Save : σ → SaveParams → Except Error DatasetRef × σ
  Remove : σ → DatasetRef → Except Error Bool × σ

/-- A call made by a handler: a request method with its argument, or a log line. -/
inductive Call where
  | Get (ref : DatasetRef)
  | List (p : ListParams)
  | Add (ref : DatasetRef)
  | Save (p : SaveParams)
  | Remove (ref : DatasetRef)
  | Infof (format : String) (err : Error)
  deriving DecidableEq, Repr

/-- What a handler hands to the response writer; `panic` stands for a handler that died on a
slice expression before writing anything. -/
inductive Response where
  | WriteErrResponse (status : Nat) (err : Error)
  | WriteResponse (ref : DatasetRef)
  | WriteDataset (dataset : Option String)
  | WritePageResponse (refs : List DatasetRef) (page : ListParams)
  | panic
  deriving DecidableEq, Repr

/-- The result of serving one request. -/
structure Served (σ : Type) where
  state : σ
  calls : List Call
  response : Response

/-- The method `(*DatasetHandlers).listHandler`. -/
def DatasetHandlers.listHandler {σ : Type} (h : DatasetHandlers σ) (s : σ) (r : Request) :
    Served σ :=
  let args := h.ListParamsFromRequest r
  let args := { args with OrderBy := "created" }
  match h.List s args with
  | (.error err, s1) =>
    ⟨s1, [.List args, .Infof "error listing datasets: %s" err],
      .WriteErrResponse StatusInternalServerError err⟩
  | (.ok res, s1) =>
    match h.writePageError res args with
    | some err =>
      ⟨s1, [.List args, .Infof "error list datasests response: %s" err],
        .WritePageResponse res args⟩
    | none => ⟨s1, [.List args], .WritePageResponse res args⟩

/-- The method `(*DatasetHandlers).getHandler`. -/
def DatasetHandlers.getHandler {σ : Type} (h : DatasetHandlers σ) (s : σ) (r : Request) :
    Served σ :=
  match h.DatasetRefFromPath r.Path with
  | .error err => ⟨s, [], .WriteErrResponse StatusBadRequest err⟩
  | .ok args =>
    if args.Name = "" then
      ⟨s, [], .WriteErrResponse StatusBadRequest (.new "no dataset name or hash given")⟩
    else
      match h.Get s args with
      | (.error err, s1) => ⟨s1, [.Get args], .WriteErrResponse StatusInternalServerError err⟩
      | (.ok res, s1) => ⟨s1, [.Get args], .WriteResponse res⟩

/-- The method `(*DatasetHandlers).peerListHandler`. -/
def DatasetHandlers.peerListHandler {σ : Type} (h : DatasetHandlers σ) (s : σ) (r : Request) :
    Served σ :=
  let p := h.ListParamsFromRequest r
  match sliceFrom r.Path "/list/".length with
  | none => ⟨s, [], .panic⟩
  | some rest =>
    match h.DatasetRefFromPath rest with
    | .error err => ⟨s, [], .WriteErrResponse StatusBadRequest err⟩
    | .ok ref =>
      if !h.IsPeerRef ref then
        ⟨s, [], .WriteErrResponse StatusBadRequest
          (.new "request needs to be in the form '/list/[peername]'")⟩
      else
        let p := { p with Peername := ref.Peername, OrderBy := "created" }
        match h.List s p with
        | (.error err, s1) =>
          ⟨s1, [.List p, .Infof "error listing peer's datasets: %s" err],
            .WriteErrResponse StatusInternalServerError err⟩
        | (.ok res, s1) =>
          match h.writePageError res p with
          | some err =>
            ⟨s1, [.List p, .Infof "error list datasests response: %s" err],
              .WritePageResponse res p⟩
          | none => ⟨s1, [.List p], .WritePageResponse res p⟩

/-- The method `(*DatasetHandlers).addHandler`. -/
def DatasetHandlers.addHandler {σ : Type} (h : DatasetHandlers σ) (s : σ) (r : Request) :
    Served σ :=
  match sliceFrom r.Path "/add/".length with
  | none => ⟨s, [], .panic⟩
  | some rest =>
    match h.DatasetRefFromPath rest with
    | .error err => ⟨s, [], .WriteErrResponse StatusBadRequest err⟩
    | .ok ref =>
      if ref.Peername = "" ∨ ref.Name = "" then
        ⟨s, [], .WriteErrResponse StatusBadRequest
          (.new "need peername and dataset name: '/add/[peername]/[datasetname]'")⟩
      else
        match h.Add s ref with
        | (.error err, s1) => ⟨s1, [.Add ref], .WriteErrResponse StatusInternalServerError err⟩
        | (.ok res, s1) => ⟨s1, [.Add ref], .WriteResponse res⟩

/-- The method `(*DatasetHandlers).removeHandler`. -/
def DatasetHandlers.removeHandler {σ : Type} (h : DatasetHandlers σ) (s : σ) (r : Request) :
    Served σ :=
  match sliceFrom r.Path "/remove/".length with
  | none => ⟨s, [], .panic⟩
  | some rest =>
    match h.DatasetRefFromPath rest with
    | .error err => ⟨s, [], .WriteErrResponse StatusBadRequest err⟩
    | .ok p =>
      match h.Get s p with
      | (.error err, s1) => ⟨s1, [.Get p], .WriteErrResponse StatusBadRequest err⟩
      | (.ok ref, s1) =>
        match h.Remove s1 ref with
        | (.error err, s2) =>
          ⟨s2, [.Get p, .Remove ref, .Infof "error deleting dataset: %s" err],
            .WriteErrResponse StatusInternalServerError err⟩
        | (.ok _, s2) => ⟨s2, [.Get p, .Remove ref], .WriteDataset ref.Dataset⟩

/-- The tail shared by both branches of `saveHandler`: the call of `Save` and the response. -/
def DatasetHandlers.saveCall {σ : Type} (h : DatasetHandlers σ) (s : σ) (save : SaveParams) :
    Served σ :=
  match h.Save s save with
  | (.error err, s1) => ⟨s1, [.Save save], .WriteErrResponse StatusInternalServerError err⟩
  | (.ok res, s1) => ⟨s1, [.Save save], .WriteResponse res⟩

/-- The branch of `saveHandler` for `Content-Type: application/json`. -/
def DatasetHandlers.saveJSON {σ : Type} (h : DatasetHandlers σ) (s : σ) (r : Request) :
    Served σ :=
  match h.decodeSaveParams r.Body with
  | .error err => ⟨s, [], .WriteErrResponse StatusBadRequest err⟩
  | .ok saveParams =>
    let fromPath : Option (Except Error saveParamsJSON) :=
      if stringsContains r.Path "/save/" then
        match sliceFrom r.Path "/save/".length with
        | none => none
        | some rest =>
          match h.DatasetRefFromPath rest with
          | .error err => some (.error err)
          | .ok args =>
            if args.Peername ≠ "" then
              some (.ok { saveParams with Peername := args.Peername, Name := args.Name })
            else some (.ok saveParams)
      else some (.ok saveParams)
    match fromPath with
    | none => ⟨s, [], .panic⟩
    | some (.error err) => ⟨s, [], .WriteErrResponse StatusBadRequest err⟩
    | some (.ok saveParams) =>
      let save : SaveParams :=
        { Peername := saveParams.Peername
          Name := saveParams.Name
          Title := saveParams.Title
          Message := saveParams.Message }
      if saveParams.Data ≠ "" then
        ⟨s, [], .WriteErrResponse StatusBadRequest (.new
          "cannot accept data files using Content-Type: application/json. must make a mime/multipart request")⟩
      else
        let save :=
          if saveParams.Meta ≠ "" then
            { save with
              Metadata := some ⟨"meta.json", saveParams.Meta⟩
              MetadataFilename := "meta.json" }
          else save
        let save :=
          if saveParams.Structure ≠ "" then
            { save with
              Structure := some ⟨"structure.json", saveParams.Structure⟩
              StructureFilename := "structure.json" }
          else save
        h.saveCall s save

/-- The branch of `saveHandler` for every other content type (a form upload). -/
def DatasetHandlers.saveForm {σ : Type} (h : DatasetHandlers σ) (s : σ) (r : Request) :
    Served σ :=
  let save : SaveParams :=
    { Peername := r.FormValue "peername"
      URL := r.FormValue "url"
      Name := r.FormValue "name"
      Title := r.FormValue "title"
      Message := r.FormValue "message" }
  match r.FormFile "file" with
  | .failed err =>
    ⟨s, [], .WriteErrResponse StatusBadRequest
      (.new ("error opening data file: " ++ err.text))⟩
  | infile =>
    let save :=
      match infile with
      | .file filename content =>
        { save with Data := some ⟨filename, content⟩, DataFilename := filename }
      | _ => save
    match r.FormFile "metadata" with
    | .failed err =>
      ⟨s, [], .WriteErrResponse StatusBadRequest
        (.new ("error opening metatdata file: " ++ err.text))⟩
    | metadatafile =>
      let save :=
        match metadatafile with
        | .file filename content =>
          { save with Metadata := some ⟨filename, content⟩, MetadataFilename := filename }
        | _ => save
      match r.FormFile "structure" with
      | .failed err =>
        ⟨s, [], .WriteErrResponse StatusBadRequest
          (.new ("error opening structure file: " ++ err.text))⟩
      | structurefile =>
        let save :=
          match structurefile with
          | .file filename content =>
            { save with Structure := some ⟨filename, content⟩, StructureFilename := filename }
          | _ => save
        h.saveCall s save

/-- The method `(*DatasetHandlers).saveHandler`. -/
def DatasetHandlers.saveHandler {σ : Type} (h : DatasetHandlers σ) (s : σ) (r : Request) :
    Served σ :=
  if r.ContentType = "application/json" then h.saveJSON s r else h.saveForm s r

/-- The `Save` calls among the calls of a handler. -/
def Served.saves {σ : Type} (r : Served σ) : List SaveParams :=
  r.calls.filterMap (fun c => match c with
    | .Save p => some p
    | _ => none)

/-! ### `initHandler` -/

/-- The struct `core.InitParams`, with the fields the handler sets; an unset file is nil. -/
structure InitParams where
  Peername : String := ""
  URL : String := ""
  Name : String := ""
  Data : Option Memfile := none
  DataFilename : String := ""
  Metadata : Option Memfile := none
  MetadataFilename : String := ""
  Structure : Option Memfile := none
  StructureFilename : String := ""
  deriving DecidableEq, Repr

/-- What `initHandler` calls outside the file: the JSON decoding of a request body into
`core.InitParams`, and the request method `Init` of the embedded `core.DatasetRequests`. -/
structure InitRequests (σ : Type) where
  decodeInitParams : String → Except Error InitParams
  Init : σ → InitParams → Except Error DatasetRef × σ

/-- A call made by `initHandler`: the request method with its argument, or a log line. -/
inductive InitCall where
  | Init (p : InitParams)
  | Infof (format : String) (err : Error)
  deriving DecidableEq, Repr

/-- The result of serving one init request. -/
structure InitServed (σ : Type) where
  state : σ
  calls : List InitCall
  response : Response

/-- The tail of `initHandler` behind the `switch`: the call of `Init` and the response. -/
def DatasetHandlers.initCall {σ : Type} (h : InitRequests σ) (s : σ) (p : InitParams) :
    InitServed σ :=
  match h.Init s p with
  | (.error err, s1) =>
    ⟨s1, [.Init p, .Infof "error initializing dataset: %s" err],
      .WriteErrResponse StatusInternalServerError err⟩
  | (.ok res, s1) => ⟨s1, [.Init p], .WriteDataset res.Dataset⟩

/-- The `default` case of the `switch` in `initHandler`: the params are read from the form. -/
def DatasetHandlers.initForm {σ : Type} (h : InitRequests σ) (s : σ) (r : Request) :
    InitServed σ :=
  let p : InitParams :=
    { Peername := r.FormValue "peername"
      URL := r.FormValue "url"
      Name := r.FormValue "name" }
  match r.FormFile "file" with
  | .failed err =>
    ⟨s, [], .WriteErrResponse StatusBadRequest
      (.new ("error opening data file: " ++ err.text))⟩
  | infile =>
    let p :=
      match infile with
      | .file filename content =>
        { p with Data := some ⟨filename, content⟩, DataFilename := filename }
      | _ => p
    match r.FormFile "metadata" with
    | .failed err =>
      ⟨s, [], .WriteErrResponse StatusBadRequest
        (.new ("error opening metatdata file: " ++ err.text))⟩
    | metadatafile =>
      let p :=
        match metadatafile with
        | .file filename content =>
          { p with Metadata := some ⟨filename, content⟩, MetadataFilename := filename }
        | _ => p
      match r.FormFile "structure" with
      | .failed err =>
        ⟨s, [], .WriteErrResponse StatusBadRequest
          (.new ("error opening structure file: " ++ err.text))⟩
      | structurefile =>
        let p :=
          match structurefile with
          | .file filename content =>
            { p with Structure := some ⟨filename, content⟩, StructureFilename := filename }
          | _ => p
        DatasetHandlers.initCall h s p

/-- The method `(*DatasetHandlers).initHandler`. -/
def DatasetHandlers.initHandler {σ : Type} (h : InitRequests σ) (s : σ) (r : Request) :
    InitServed σ :=
  if r.ContentType = "application/json" then
    match h.decodeInitParams r.Body with
    | .error err =>
      ⟨s, [], .WriteErrResponse StatusBadRequest
        (.new ("error decoding body into params: " ++ err.text))⟩
    | .ok p =>
      if p.URL = "" then
        ⟨s, [], .WriteErrResponse StatusBadRequest
          (.new "if adding dataset using json, body of request must have 'url' field")⟩
      else DatasetHandlers.initCall h s p
  else DatasetHandlers.initForm h s r

/-- The arguments of the `Init` calls among the calls of the handler. -/
def InitServed.inits {σ : Type} (r : InitServed σ) : List InitParams :=
  r.calls.filterMap (fun c => match c with
    | .Init p => some p
    | _ => none)

/-! ### `dataHandler` -/

/-- The constant `defaultDataLimit`. -/
def defaultDataLimit : Int := 100

/-- The struct `core.StructuredDataParams`, with the fields the handler sets. -/
structure StructuredDataParams where
  Path : String := ""
  Format : DataFormat := 0
  Limit : Int := 0
  Offset : Int := 0
  All : Bool := false
  deriving DecidableEq, Repr

/-- What `dataHandler` calls outside the file: `util.ReqParamInt`, the constant
`dataset.JSONDataFormat`, the request method `StructuredData` (its result is the data it read),
and the error, if any, of `util.WritePageResponse`. -/
structure DataRequests (σ : Type) where
  ReqParamInt : String → Request → Except Error Int
  JSONDataFormat : DataFormat
  StructuredData : σ → StructuredDataParams → Except Error String × σ
  writePageError : String → Request → Option Error

/-- A call made by `dataHandler`: the request method with its argument, or a log line. -/
inductive DataCall where
  | StructuredData (p : StructuredDataParams)
  | Infof (format : String) (err : Error)
  deriving DecidableEq, Repr

/-- What `dataHandler` hands to the response writer; `panic` stands for a handler that died
on the slice expression. -/
inductive DataResponse where
  | WriteErrResponse (status : Nat) (err : Error)
  | WritePageResponse (data : String)
  | panic
  deriving DecidableEq, Repr

/-- The result of serving one data request. -/
structure DataServed (σ : Type) where
  state : σ
  calls : List DataCall
  response : DataResponse

/-- The read parameters that `dataHandler` builds from a request whose path, cut behind
`/data`, is `path`. -/
def DatasetHandlers.dataParams {σ : Type} (h : DataRequests σ) (r : Request) (path : String) :
    StructuredDataParams :=
  let limit :=
    match h.ReqParamInt "limit" r with
    | .error _ => defaultDataLimit
    | .ok limit => limit
  let offset :=
    match h.ReqParamInt "offset" r with
    | .error _ => 0
    | .ok offset => offset
  { Path := path
    Format := h.JSONDataFormat
    Limit := limit
    Offset := offset
    All := r.FormValue "all" == "true" && limit == defaultDataLimit && offset == 0 }

/-- The method `(DatasetHandlers).dataHandler`. -/
def DatasetHandlers.dataHandler {σ : Type} (h : DataRequests σ) (s : σ) (r : Request) :
    DataServed σ :=
  match sliceFrom r.Path "/data".length with
  | none => ⟨s, [], .panic⟩
  | some path =>
    let p := DatasetHandlers.dataParams h r path
    match h.StructuredData s p with
    | (.error err, s1) =>
      ⟨s1, [.StructuredData p], .WriteErrResponse StatusInternalServerError err⟩
    | (.ok data, s1) =>
      match h.writePageError data r with
      | some err =>
        ⟨s1, [.StructuredData p, .Infof "error writing repsonse: %s" err],
          .WritePageResponse data⟩
      | none => ⟨s1, [.StructuredData p], .WritePageResponse data⟩

/-- The arguments of the `StructuredData` calls among the calls of the handler. -/
def DataServed.reads {σ : Type} (r : DataServed σ) : List StructuredDataParams :=
  r.calls.filterMap (fun c => match c with
    | .StructuredData p => some p
    | _ => none)

/-! ## `cmd/info.go`: what a run fetches -/

/-- The references of an argument list that parse and are not peer-only, in argument order. -/
def InfoOptions.nonPeerRefs {σ : Type} (env : Requests σ) (refs : List String) :
    List DatasetRef :=
  refs.filterMap (fun refstr =>
    match env.ParseDatasetRef refstr with
    | .ok ref => if env.IsPeerRef ref then none else some ref
    | .error _ => none)

/-- The peernames of the references of an argument list that parse and are peer-only, in
argument order. -/
def InfoOptions.peerOnly {σ : Type} (env : Requests σ) (refs : List String) : List String :=
  refs.filterMap (fun refstr =>
    match env.ParseDatasetRef refstr with
    | .ok ref => if env.IsPeerRef ref then some ref.Peername else none
    | .error _ => none)

/-- The references passed to `Get` during a run, in order. -/
def CmdResult.gets {σ : Type} (r : CmdResult σ) : List DatasetRef :=
  r.events.filterMap (fun e => match e with
    | .Get ref _ => some ref
    | _ => none)

/-- The peers named in the warnings printed during a run, in order. -/
def CmdResult.warnings {σ : Type} (r : CmdResult σ) : List String :=
  r.events.filterMap (fun e => match e with
    | .printWarning _ arg => some arg
    | _ => none)

/-- Fetches the references in turn as the loop of `(*InfoOptions).Run` does, starting in state
`s`: `Get`, then, when a format is set, the JSON encoding of the dataset.  The state reached
when nothing fails, `none` as soon as a `Get` or an encoding fails. -/
def InfoOptions.fetchAll {σ : Type} (env : Requests σ) (o : InfoOptions) :
    σ → List DatasetRef → Option σ
  | s, [] => some s
  | s, ref :: refs =>
    match env.Get s ref with
    | (.error _, _) => none
    | (.ok res, s1) =>
      if o.Format = "" then InfoOptions.fetchAll env o s1 refs
      else
        match env.MarshalIndent res.Dataset with
        | .error _ => none
        | .ok _ => InfoOptions.fetchAll env o s1 refs

/-- The contract of the loop of `info` over a list of references: the list splits into a part
`done` that was processed to its end (every reference parsed; `Get` was called exactly for the
references of `done` that are not peer-only, in order, and all of it succeeded; the warning was
printed exactly for the peer-only references of `done`, in order), followed by nothing (nil is
returned), or by a reference that fails to parse (its error is returned), or by a reference that
is not peer-only and whose `Get` fails (the process exits with that error), or whose dataset
cannot be encoded (that error is returned).  Nothing behind that reference is looked at. -/
def InfoOptions.RunsUntilFirstFailure {σ : Type} (env : Requests σ) (o : InfoOptions) (s : σ)
    (refs : List String) (r : CmdResult σ) : Prop :=
  ∃ (done : List String) (s1 : σ),
    (∀ a ∈ done, ∃ ref, env.ParseDatasetRef a = .ok ref) ∧
    InfoOptions.fetchAll env o s (InfoOptions.nonPeerRefs env done) = some s1 ∧
    r.warnings = InfoOptions.peerOnly env done ∧
    ((refs = done ∧ r.outcome = .returned none ∧ r.state = s1 ∧
        r.gets = InfoOptions.nonPeerRefs env done) ∨
      (∃ a rest err, refs = done ++ a :: rest ∧ env.ParseDatasetRef a = .error err ∧
        r.outcome = .returned (some err) ∧ r.state = s1 ∧
        r.gets = InfoOptions.nonPeerRefs env done) ∨
      (∃ a rest ref err s2, refs = done ++ a :: rest ∧ env.ParseDatasetRef a = .ok ref ∧
        env.IsPeerRef ref = false ∧ env.Get s1 ref = (.error err, s2) ∧
        r.outcome = .exit err ∧ r.state = s2 ∧
        r.gets = InfoOptions.nonPeerRefs env done ++ [ref]) ∨
      (∃ a rest ref res err s2, refs = done ++ a :: rest ∧ env.ParseDatasetRef a = .ok ref ∧
        env.IsPeerRef ref = false ∧ env.Get s1 ref = (.ok res, s2) ∧ o.Format ≠ "" ∧
        env.MarshalIndent res.Dataset = .error err ∧
        r.outcome = .returned (some err) ∧ r.state = s2 ∧
        r.gets = InfoOptions.nonPeerRefs env done ++ [ref]))

/-! ## `cmd/get.go`: `Run` -/

/-- The struct `lib.SelectParams`, as built by `Run`. -/
structure SelectParams where
  Path : String := ""
  Format : String := ""
  Concise : Bool := false
  deriving DecidableEq, Repr

/-- What `(*GetOptions).Run` calls outside the file: `repo.ParseDatasetRef`, the method
`Select` of the request handle stored in the options (nil when `none`), and `Write` on the
output stream, of which the returned error is kept. -/
structure GetRequests (DR σ : Type) where
  ParseDatasetRef : String → Except Error DatasetRef
  Select : Option DR → σ → SelectParams → Except Error String × σ
  Write : String → Option Error

/-- What `qri get` does that can be observed: the `Select` request with the error it got back,
and the bytes written to `o.Out` with the error of the write. -/
inductive GetEvent where
  | Select (p : SelectParams) (err : Option Error)
  | Write (data : String) (err : Option Error)
  deriving DecidableEq, Repr

/-- The result of `(*GetOptions).Run`: final state, events in order, returned error. -/
structure GetResult (σ : Type) where
  state : σ
  events : List GetEvent
  err : Option Error

/-- The first loop of `(*GetOptions).Run`: parses the references in order and stops at the
first error. -/
def GetOptions.parseRefs {DR σ : Type} (env : GetRequests DR σ) :
    List String → Except Error (List DatasetRef)
  | [] => .ok []
  | refstr :: rest =>
    match env.ParseDatasetRef refstr with
    | .error err => .error err
    | .ok ref =>
      match GetOptions.parseRefs env rest with
      | .error err => .error err
      | .ok refs => .ok (ref :: refs)

/-- The method `(*GetOptions).Run`. -/
def GetOptions.Run {DR σ : Type} (env : GetRequests DR σ) (o : GetOptions DR) (s : σ) :
    GetResult σ :=
  match GetOptions.parseRefs env o.Refs with
  | .error err => ⟨s, [], some err⟩
  | .ok _ =>
    let p : SelectParams := { Path := o.Path, Format := o.Format, Concise := o.Concise }
    match env.Select o.DatasetRequests s p with
    | (.error err, s1) => ⟨s1, [.Select p (some err)], some err⟩
    | (.ok res, s1) => ⟨s1, [.Select p none, .Write res (env.Write res)], env.Write res⟩

/-- The parameters of the `Select` requests of a run. -/
def GetResult.selects {σ : Type} (r : GetResult σ) : List SelectParams :=
  r.events.filterMap (fun e => match e with
    | .Select p _ => some p
    | _ => none)

/-- The data written to the output stream during a run. -/
def GetResult.written {σ : Type} (r : GetResult σ) : List String :=
  r.events.filterMap (fun e => match e with
    | .Write data _ => some data
    | _ => none)

/-! ## `cmd/qri.go` -/

/-- A resource made outside these files (a connection, a file store, a profile, a repo, a
client), known here only by a label. -/
abbrev Handle := String

/-- The part of `config.CLI` that `init` reads. -/
structure config.CLI where
  ColorizeOutput : Bool := false
  deriving DecidableEq, Repr

/-- The part of `config.RPC` that `init` reads. -/
structure config.RPC where
  Enabled : Bool := false
  Port : Nat := 0
  deriving DecidableEq, Repr

/-- The part of `config.Registry` that `init` reads. -/
structure config.Registry where
  Location : String := ""
  deriving DecidableEq, Repr

/-- The part of `config.Config` that `init` reads; `Registry` may be nil. -/
structure config.Config where
  CLI : config.CLI := {}
  RPC : config.RPC := {}
  Profile : String := ""
  Registry : Option config.Registry := none
  deriving DecidableEq, Repr

/-- What the initialization calls outside the file: `filepath.Join`, `lib.LoadConfig` (with
the `lib.Config` it leaves behind), `net.Dial` on tcp, whether `os.Stat` reports a missing
file, `ipfs.NewFilestore` for a repo path, `profile.NewProfile`, and `fsrepo.NewRepo`, which
returns a repo (possibly nil) together with an error (possibly nil). -/
structure InitWorld where
  Join : String → String → String
  LoadConfig : String → Except Error config.Config
  Dial : String → Except Error Handle
  statNotExist : String → Bool
  NewFilestore : String → Except Error Handle
  NewProfile : String → Except Error Handle
  NewRepo : Handle → Handle → Option Handle → String → Option Handle × Option Error

/-- The struct `QriOptions` (without its streams); `initialized` is the state of its
`sync.Once`: whether `Do` has been called. -/
structure QriOptions where
  qriRepoPath : String := ""
  ipfsFsPath : String := ""
  NoPrompt : Bool := false
  NoColor : Bool := false
  ConfigPath : String := ""
  config : Option config.Config := none
  node : Option Handle := none
  repo : Option Handle := none
  rpc : Option Handle := none
  initialized : Bool := false
  deriving DecidableEq, Repr

/-- The function `NewQriOptions`. -/
def NewQriOptions (qriPath ipfsPath : String) : QriOptions :=
  { qriRepoPath := qriPath, ipfsFsPath := ipfsPath }

/-- A step of the initialization that is visible outside the options. -/
inductive InitStep where
  | setConfigFilepath (cfgPath : String)
  | LoadConfig (cfgPath : String)
  | setNoColor (noColor : Bool)
  | Dial (addr : String)
  | Stat (cfgPath : String)
  | NewFilestore (fsRepoPath : String)
  | NewProfile (profile : String)
  | NewRepo (qriRepoPath : String)
  deriving DecidableEq, Repr

/-- The result of the closure `initBody` and of `init`: the options afterwards, the value of
the named result `err`, and the steps taken. -/
structure InitResult where
  options : QriOptions
  err : Option Error
  steps : List InitStep
  deriving DecidableEq, Repr

/-- The part of `initBody` behind the RPC dial: it needs a config file on disk, then builds the
file store, the profile, the registry client and the repo. -/
def QriOptions.initRepo (w : InitWorld) (o : QriOptions) (cfg : config.Config)
    (cfgPath : String) (steps : List InitStep) : InitResult :=
  if w.statNotExist cfgPath then
    ⟨o, some (.new "no qri repo found, please run `qri setup`"), steps ++ [.Stat cfgPath]⟩
  else
    match w.NewFilestore o.ipfsFsPath with
    | .error err => ⟨o, some err, steps ++ [.Stat cfgPath, .NewFilestore o.ipfsFsPath]⟩
    | .ok fs =>
      match w.NewProfile cfg.Profile with
      | .error err =>
        ⟨o, some err,
          steps ++ [.Stat cfgPath, .NewFilestore o.ipfsFsPath, .NewProfile cfg.Profile]⟩
      | .ok pro =>
        let rc : Option Handle :=
          match cfg.Registry with
          | some registry => if registry.Location ≠ "" then some registry.Location else none
          | none => none
        let (repo, err) := w.NewRepo fs pro rc o.qriRepoPath
        ⟨{ o with repo := repo }, err,
          steps ++ [.Stat cfgPath, .NewFilestore o.ipfsFsPath, .NewProfile cfg.Profile,
            .NewRepo o.qriRepoPath]⟩

/-- The closure `initBody` of `(*QriOptions).init`. -/
def QriOptions.initBody (w : InitWorld) (o : QriOptions) : InitResult :=
  let cfgPath := w.Join o.qriRepoPath "config.yaml"
  match w.LoadConfig cfgPath with
  | .error err => ⟨o, some err, [.setConfigFilepath cfgPath, .LoadConfig cfgPath]⟩
  | .ok cfg =>
    let o := { o with config := some cfg }
    let steps : List InitStep :=
      [.setConfigFilepath cfgPath, .LoadConfig cfgPath,
        .setNoColor (!cfg.CLI.ColorizeOutput || o.NoColor)]
    if cfg.RPC.Enabled then
      let addr := ":" ++ toString cfg.RPC.Port
      match w.Dial addr with
      | .error _ => QriOptions.initRepo w o cfg cfgPath (steps ++ [.Dial addr])
      | .ok conn => ⟨{ o with rpc := some conn }, none, steps ++ [.Dial addr]⟩
    else QriOptions.initRepo w o cfg cfgPath steps

/-- The method `(*QriOptions).init`: `o.initialized.Do(initBody)` runs the closure unless `Do`
was called before, and the named result `err`, nil at the start of every call, is returned. -/
def QriOptions.init (w : InitWorld) (o : QriOptions) : InitResult :=
  if o.initialized then ⟨o, none, []⟩
  else
    let r := QriOptions.initBody w o
    { r with options := { r.options with initialized := true } }

/-- The method `(*QriOptions).Config`: options afterwards, returned config, returned error. -/
def QriOptions.Config (w : InitWorld) (o : QriOptions) :
    QriOptions × Option config.Config × Option Error :=
  let r := QriOptions.init w o
  match r.err with
  | some err => (r.options, none, some err)
  | none => (r.options, r.options.config, none)

/-- The value made by `lib.NewDatasetRequestsWithNode(repo, rpc, node)`, known by what it was
built from. -/
structure DatasetRequestsHandle where
  repo : Option Handle
  rpc : Option Handle
  node : Option Handle
  deriving DecidableEq, Repr

/-- The method `(*QriOptions).DatasetRequests`: options afterwards, returned handle, returned
error. -/
def QriOptions.DatasetRequests (w : InitWorld) (o : QriOptions) :
    QriOptions × Option DatasetRequestsHandle × Option Error :=
  let r := QriOptions.init w o
  match r.err with
  | some err => (r.options, none, some err)
  | none => (r.options, some ⟨r.options.repo, r.options.rpc, r.options.node⟩, none)

/-! ## A small in-memory instance

The statements below hold for every implementation of the calls into other packages.  This
instance, a repository that is a plain list of references, serves to run the definitions on
concrete requests. -/

/-- A sample reference parser for `peername/name@path`, with an optional leading slash; the
empty string is rejected. -/
def sampleParse (str : String) : Except Error DatasetRef :=
  let cs := match str.data with
    | '/' :: rest => rest
    | cs => cs
  if cs = [] then .error (.new "cannot parse empty string as dataset reference")
  else
    let nameRef := cs.takeWhile (fun c => c != '@')
    let path := (cs.dropWhile (fun c => c != '@')).drop 1
    .ok { Peername := ⟨nameRef.takeWhile (fun c => c != '/')⟩
          Name := ⟨(nameRef.dropWhile (fun c => c != '/')).drop 1⟩
          Path := ⟨path⟩ }

/-- Sample lookup: the stored reference with the same peername and name. -/
def sampleGet (s : List DatasetRef) (ref : DatasetRef) : Except Error DatasetRef × List DatasetRef :=
  match s.find? (fun x => x.Peername == ref.Peername && x.Name == ref.Name) with
  | some x => (.ok x, s)
  | none => (.error (.new "repo: not found"), s)

/-- Sample handlers over a repository that is a list of references. -/
def sampleHandlers : DatasetHandlers (List DatasetRef) where
  DatasetRefFromPath := sampleParse
  ListParamsFromRequest := fun r => { OrderBy := r.FormValue "orderBy", Limit := 25 }
  IsPeerRef := fun ref => ref.Peername != "" && ref.Name == ""
  decodeSaveParams := fun body =>
    if body = "" then .error (.new "EOF") else .ok { Name := "ds", Meta := body }
  writePageError := fun _ _ => none
  Get := sampleGet
  List := fun s _ => (.ok s, s)
  Add := fun s ref => (.ok ref, s ++ [ref])
  Save := fun s p => (.ok { Peername := p.Peername, Name := p.Name }, s)
  Remove := fun s ref => (.ok true, s.filter (fun x => x != ref))

/-- Sample command environment over the same repository. -/
def sampleRequests : Requests (List DatasetRef) where
  ParseDatasetRef := sampleParse
  parseCmdLineDatasetRef := sampleParse
  IsPeerRef := fun ref => ref.Peername != "" && ref.Name == ""
  ParseDataFormatString := fun str =>
    if str = "json" then .ok 1 else if str = "csv" then .ok 2
    else .error (.new "invalid data format")
  JSONDataFormat := 1
  MarshalIndent := fun d => .ok (d.getD "null")
  Add := fun s ref => (.ok ref, s ++ [ref])
  Get := sampleGet
  Publish := fun s _ => (.ok true, s)
  Unpublish := fun s _ => (.ok true, s)

/-- A JSON save request that carries metadata and whose path names no dataset. -/
def sampleJSONSave : Request :=
  { Path := "/save/", ContentType := "application/json", Body := "meta" }

/-- A JSON save request for `me/ds` that carries metadata. -/
def sampleJSONSaveRef : Request :=
  { Path := "/save/me/ds", ContentType := "application/json", Body := "meta" }

/-- A form upload whose body file opens and whose metadata file fails to open. -/
def sampleFormSaveFailing : Request :=
  { Path := "/save/"
    ContentType := "multipart/form-data"
    FormFile := fun key =>
      if key = "file" then .file "body.csv" "a,b"
      else if key = "metadata" then .failed (.new "open: no such file")
      else .missing }

/-- A form upload of a body file and a structure file. -/
def sampleFormSave : Request :=
  { Path := "/save/"
    ContentType := "multipart/form-data"
    FormValue := fun key => if key = "name" then "ds" else ""
    FormFile := fun key =>
      if key = "file" then .file "body.csv" "a,b"
      else if key = "structure" then .file "structure.json" "schema"
      else .missing }

/-- The `List` calls among the calls of a handler. -/
def Served.lists {σ : Type} (r : Served σ) : List ListParams :=
  r.calls.filterMap (fun c => match c with
    | .List p => some p
    | _ => none)

/-- The `Remove` calls among the calls of a handler. -/
def Served.removes {σ : Type} (r : Served σ) : List DatasetRef :=
  r.calls.filterMap (fun c => match c with
    | .Remove ref => some ref
    | _ => none)

/-- A list request that asks for ordering by name. -/
def sampleListByName : Request :=
  { Path := "/list/me", FormValue := fun key => if key = "orderBy" then "name" else "" }

/-- The sample repository holding the single dataset `me/ds`. -/
def sampleRepo : List DatasetRef :=
  [{ Peername := "me", Name := "ds", Path := "/ipfs/QmUNLL" }]

/-- The request `DELETE /remove/me/ds`. -/
def sampleRemove : Request :=
  { Path := "/remove/me/ds" }

/-- Sample init requests: an empty body does not decode, the body `no-url` decodes to params
without a url, any other body is taken as the url. -/
def sampleInit : InitRequests (List DatasetRef) where
  decodeInitParams := fun body =>
    if body = "" then .error (.new "EOF")
    else if body = "no-url" then .ok { Name := "ds" }
    else .ok { URL := body, Name := "ds" }
  Init := fun s p =>
    (.ok { Peername := "me", Name := p.Name }, s ++ [{ Peername := "me", Name := p.Name }])

/-- A form post that is not multipart: every file look-up fails with `http.ErrNotMultipart`. -/
def sampleInitUrlencoded : Request :=
  { Path := "/init/"
    ContentType := "application/x-www-form-urlencoded"
    FormValue := fun key =>
      if key = "url" then "http://example.com/data.csv" else if key = "name" then "ds" else ""
    FormFile := fun _ => .failed (.new "request Content-Type isn't multipart/form-data") }

/-- A multipart form post with a body file and no url. -/
def sampleInitMultipart : Request :=
  { Path := "/init/"
    ContentType := "multipart/form-data"
    FormValue := fun key => if key = "name" then "ds" else ""
    FormFile := fun key => if key = "file" then .file "body.csv" "a,b" else .missing }

/-- A JSON init request with a url. -/
def sampleInitJSON : Request :=
  { Path := "/init/", ContentType := "application/json", Body := "http://example.com/data.csv" }

/-- Reads an unsigned decimal number; `none` for the empty string and for any other text. -/
def sampleAtoi (cs : List Char) : Option Nat :=
  if cs = [] then none
  else cs.foldl (fun acc c =>
    match acc with
    | some n => if c.isDigit then some (10 * n + (c.toNat - 48)) else none
    | none => none) (some 0)

/-- Sample data requests: parameters are read from the form values as decimal numbers. -/
def sampleData : DataRequests (List DatasetRef) where
  ReqParamInt := fun key r =>
    match sampleAtoi (r.FormValue key).data with
    | some n => .ok n
    | none => .error (.new "strconv.ParseInt: invalid syntax")
  JSONDataFormat := 1
  StructuredData := fun s p => (.ok p.Path, s)
  writePageError := fun _ _ => none

/-- The request `GET /data/me/ds?all=true&limit=10`. -/
def sampleDataAllLimit : Request :=
  { Path := "/data/me/ds"
    FormValue := fun key => if key = "all" then "true" else if key = "limit" then "10" else "" }

/-- The request `GET /data/me/ds?all=true`. -/
def sampleDataAll : Request :=
  { Path := "/data/me/ds", FormValue := fun key => if key = "all" then "true" else "" }

/-- Sample environment of `qri get`: the selection is rendered from the request alone. -/
def sampleGetRequests : GetRequests Unit (List DatasetRef) where
  ParseDatasetRef := sampleParse
  Select := fun _ s p => (.ok (p.Path ++ " as " ++ p.Format), s)
  Write := fun _ => none

/-- Sample world of `qri`: a config file exists only for the repo path `/qri`, and its RPC
switch is off. -/
def sampleWorld : InitWorld where
  Join := fun dir file => dir ++ "/" ++ file
  LoadConfig := fun cfgPath =>
    if cfgPath = "/qri/config.yaml" then .ok { Profile := "me" }
    else .error (.new "open config.yaml: no such file or directory")
  Dial := fun _ => .error (.new "connection refused")
  statNotExist := fun cfgPath => cfgPath != "/qri/config.yaml"
  NewFilestore := fun fsRepoPath => .ok fsRepoPath
  NewProfile := fun profile => .ok profile
  NewRepo := fun _ _ _ qriRepoPath => (some qriRepoPath, none)

/-- Sample handlers whose `Add` pins the path of the dataset it adds, whose `Save` stores the
dataset it saves, and whose JSON bodies decode as follows: the body `data` carries inline data,
an empty body does not decode, any other body is the metadata of a request that also carries a
structure. -/
def sampleAdding : DatasetHandlers (List DatasetRef) :=
  { sampleHandlers with
    decodeSaveParams := fun body =>
      if body = "" then .error (.new "EOF")
      else if body = "data" then .ok { Name := "ds", Data := "[[1,2]]" }
      else .ok { Name := "ds", Meta := body, Structure := "schema" }
    Add := fun s ref =>
      (.ok { ref with Path := "/ipfs/QmAdded" }, s ++ [{ ref with Path := "/ipfs/QmAdded" }])
    Save := fun s p =>
      (.ok { Peername := p.Peername, Name := p.Name, Path := "/ipfs/QmSaved" },
        s ++ [{ Peername := p.Peername, Name := p.Name, Path := "/ipfs/QmSaved" }]) }

/-- A JSON save request for `me/ds` that carries inline data. -/
def sampleJSONSaveData : Request :=
  { Path := "/save/me/ds", ContentType := "application/json", Body := "data" }

/-- Sample init requests over a repository whose `Init` stores the new dataset under the peer
`me` and returns it with its path and its loaded dataset. -/
def sampleInitStoring : InitRequests (List DatasetRef) :=
  { sampleInit with
    Init := fun s p =>
      (.ok { Peername := "me", Name := p.Name, Path := "/ipfs/QmInit", Dataset := some p.Name },
        s ++ [{ Peername := "me", Name := p.Name, Path := "/ipfs/QmInit",
                Dataset := some p.Name }]) }

/-- A JSON init request whose body decodes to params without a url. -/
def sampleInitJSONNoURL : Request :=
  { Path := "/init/", ContentType := "application/json", Body := "no-url" }

/-! ## Properties of `cmd/get.go` -/

/-- C1: `GetOptions.Complete`, run on options whose `Path` is still empty, splits the argument
list without loss: either `Path = ""` and `Refs = args`, or `args = Path :: Refs` (so `args` is
non-empty, `Path = args[0]`, `Refs = args[1:]`); the second case holds exactly when `args` is
non-empty and `isDatasetField` matches `args[0]`.  The three examples of the claim are
instances. -/
theorem GetOptions.Complete_splits_args {DR : Type} (o : GetOptions DR) (f : Factory DR)
    (args : List String) (hPath : o.Path = "") :
    ((o.Complete f args).1.Path = "" ∧ (o.Complete f args).1.Refs = args ∨
        args = (o.Complete f args).1.Path :: (o.Complete f args).1.Refs) ∧
      (args = (o.Complete f args).1.Path :: (o.Complete f args).1.Refs ↔
        ∃ a rest, args = a :: rest ∧ isDatasetField.MatchString a = true) ∧
      ((o.Complete f ["commit", "peer/ds"]).1.Path = "commit" ∧
        (o.Complete f ["commit", "peer/ds"]).1.Refs = ["peer/ds"]) ∧
      ((o.Complete f ["foo", "peer/ds"]).1.Path = "" ∧
        (o.Complete f ["foo", "peer/ds"]).1.Refs = ["foo", "peer/ds"]) ∧
      ((o.Complete f []).1.Path = "" ∧ (o.Complete f []).1.Refs = []) := by
  have hcommit : isDatasetField.MatchString "commit" = true := by decide
  have hfoo : isDatasetField.MatchString "foo" = false := by decide
  refine ⟨?_, ?_, ?_, ?_, ?_⟩
  · cases args with
    | nil => left; simp [GetOptions.Complete, hPath]
    | cons a rest =>
      by_cases hm : isDatasetField.MatchString a = true
      · right; simp [GetOptions.Complete, hm]
      · left; simp [GetOptions.Complete, hm, hPath]
  · cases args with
    | nil => simp
    | cons a rest =>
      by_cases hm : isDatasetField.MatchString a = true
      · simp [GetOptions.Complete, hm]
      · simp only [GetOptions.Complete, hm]
        constructor
        · intro h
          have hlen := congrArg List.length h
          simp at hlen
        · rintro ⟨a', rest', heq, hm'⟩
          cases heq
          exact absurd hm' hm
  · simp [GetOptions.Complete, hcommit]
  · simp [GetOptions.Complete, hfoo, hPath]
  · simp [GetOptions.Complete, hPath]

/-- Witness for C1: freshly constructed options and the argument list of the test. -/
theorem GetOptions.Complete_splits_args_witness :
    ((({} : GetOptions Unit).Complete ⟨(some (), none)⟩ ["structure"]).1.Path = "" ∧
        (({} : GetOptions Unit).Complete ⟨(some (), none)⟩ ["structure"]).1.Refs = ["structure"] ∨
        ["structure"] = (({} : GetOptions Unit).Complete ⟨(some (), none)⟩ ["structure"]).1.Path ::
          (({} : GetOptions Unit).Complete ⟨(some (), none)⟩ ["structure"]).1.Refs) :=
  (GetOptions.Complete_splits_args ({} : GetOptions Unit) ⟨(some (), none)⟩ ["structure"] rfl).1

/-- C2: the expression behind `isDatasetField` is not anchored, so it accepts every string that
merely contains a field name.  On the arguments `peer/meta_ds peer/ds` the dataset reference
`peer/meta_ds` is taken for a field: `Complete` stores it in `Path` and drops it from `Refs`. -/
theorem isDatasetField_accepts_dataset_reference :
    isDatasetField.MatchString "peer/meta_ds" = true ∧
      (({} : GetOptions Unit).Complete ⟨(some (), none)⟩ ["peer/meta_ds", "peer/ds"]).1.Path
        = "peer/meta_ds" ∧
      (({} : GetOptions Unit).Complete ⟨(some (), none)⟩ ["peer/meta_ds", "peer/ds"]).1.Refs
        = ["peer/ds"] := by
  have h : isDatasetField.MatchString "peer/meta_ds" = true := by decide
  simp [GetOptions.Complete, h]

/-! ## Properties of `api/datasets.go` -/

theorem length_le_byteLen (s : List Char) : s.length ≤ byteLen s := by
  induction s with
  | nil => simp [byteLen]
  | cons c cs ih =>
    have h1 : 1 ≤ runeLen c := by
      unfold runeLen
      split_ifs <;> omega
    simp only [byteLen, List.map_cons, List.sum_cons, List.length_cons] at ih ⊢
    omega

theorem length_le_of_containsFrom (sub s : List Char) (h : containsFrom sub s = true) :
    sub.length ≤ s.length := by
  induction s with
  | nil =>
    simp only [containsFrom, List.isPrefixOf_iff_prefix] at h
    exact h.length_le
  | cons c cs ih =>
    simp only [containsFrom, Bool.or_eq_true, List.isPrefixOf_iff_prefix] at h
    rcases h with h | h
    · exact h.length_le
    · exact Nat.le_succ_of_le (ih h)

theorem sliceFrom_of_contains (s sub : String) (h : stringsContains s sub = true) :
    sliceFrom s sub.length = some ⟨dropBytes sub.length s.data⟩ := by
  have h1 := length_le_of_containsFrom _ _ h
  have h2 := length_le_byteLen s.data
  have h3 : sub.length ≤ byteLen s.data := le_trans h1 h2
  simp [sliceFrom, h3]

/-- C3, as stated, fails: a JSON request with empty data and non-empty metadata whose path does
not parse is answered with 400 and `Save` is not called; a form request whose body file was
uploaded but whose metadata file cannot be opened is answered with 400 and the uploaded body is
never passed to `Save`. -/
theorem saveHandler_payload_not_always_saved :
    (¬ ∀ (h : DatasetHandlers (List DatasetRef)) (s : List DatasetRef) (r : Request)
        (sp : saveParamsJSON),
        r.ContentType = "application/json" → h.decodeSaveParams r.Body = .ok sp →
        sp.Data = "" → sp.Meta ≠ "" →
        ∃ p, (h.saveHandler s r).saves = [p] ∧ p.Metadata = some ⟨"meta.json", sp.Meta⟩) ∧
    (¬ ∀ (h : DatasetHandlers (List DatasetRef)) (s : List DatasetRef) (r : Request)
        (filename content : String),
        r.ContentType ≠ "application/json" → r.FormFile "file" = .file filename content →
        ∃ p, (h.saveHandler s r).saves = [p] ∧ p.Data = some ⟨filename, content⟩) := by
  constructor
  · intro hall
    obtain ⟨p, hp, _⟩ := hall sampleHandlers [] sampleJSONSave { Name := "ds", Meta := "meta" }
      (by decide) (by decide) (by decide) (by decide)
    have hs : (sampleHandlers.saveHandler [] sampleJSONSave).saves = [] := by decide
    rw [hs] at hp
    cases hp
  · intro hall
    obtain ⟨p, hp, _⟩ := hall sampleHandlers [] sampleFormSaveFailing "body.csv" "a,b"
      (by decide) (by decide)
    have hs : (sampleHandlers.saveHandler [] sampleFormSaveFailing).saves = [] := by decide
    rw [hs] at hp
    cases hp

theorem calls_saveCall {σ : Type} (h : DatasetHandlers σ) (s : σ) (save : SaveParams) :
    (h.saveCall s save).calls = [.Save save] := by
  unfold DatasetHandlers.saveCall
  split <;> rfl

theorem state_saveCall {σ : Type} (h : DatasetHandlers σ) (s : σ) (save : SaveParams) :
    (h.saveCall s save).state = (h.Save s save).2 := by
  unfold DatasetHandlers.saveCall
  cases hsave : h.Save s save with
  | mk res s1 => cases res <;> rfl

theorem response_saveCall {σ : Type} (h : DatasetHandlers σ) (s : σ) (save : SaveParams) :
    (h.saveCall s save).response =
      (match (h.Save s save).1 with
        | .error err => .WriteErrResponse StatusInternalServerError err
        | .ok res => .WriteResponse res) := by
  unfold DatasetHandlers.saveCall
  cases hsave : h.Save s save with
  | mk res s1 => cases res <;> rfl

/-- C3 (amended).  JSON requests: a body that does not decode, a decoded `data` that is
non-empty, or a path behind `/save/` that does not parse is answered 400 with no call and the
state untouched; a request with empty `data` that passes the path check (no `/save/` in the
path, or what follows parses) leads to exactly one call of `Save`, without `Data`, with title and
message of the body, with a non-empty `meta` / `structure` as `Metadata` named `meta.json` /
`Structure` named `structure.json` (and nil when empty); the handler ends in the state `Save`
left and answers with what `Save` returned.  Other content types: when none of the three form
file look-ups fails, exactly one call of `Save`, with the form values and with an uploaded
`file`, `metadata`, `structure` part as `Data`, `Metadata`, `Structure` under its uploaded file
name, ending in the state `Save` left and answering with what it returned; when a look-up
fails, 400 with no call and the state untouched. -/
theorem saveHandler_payloads {σ : Type} (h : DatasetHandlers σ) (s : σ) (r : Request) :
    (r.ContentType = "application/json" →
      (∀ err, h.decodeSaveParams r.Body = .error err →
        (h.saveHandler s r).response = .WriteErrResponse StatusBadRequest err ∧
          (h.saveHandler s r).calls = [] ∧ (h.saveHandler s r).state = s) ∧
      (∀ sp, h.decodeSaveParams r.Body = .ok sp → sp.Data ≠ "" →
        (∃ err, (h.saveHandler s r).response = .WriteErrResponse StatusBadRequest err) ∧
          (h.saveHandler s r).calls = [] ∧ (h.saveHandler s r).state = s) ∧
      (∀ sp rest err, h.decodeSaveParams r.Body = .ok sp →
        stringsContains r.Path "/save/" = true →
        sliceFrom r.Path "/save/".length = some rest →
        h.DatasetRefFromPath rest = .error err →
        (h.saveHandler s r).response = .WriteErrResponse StatusBadRequest err ∧
          (h.saveHandler s r).calls = [] ∧ (h.saveHandler s r).state = s) ∧
      (∀ sp, h.decodeSaveParams r.Body = .ok sp → sp.Data = "" →
        (stringsContains r.Path "/save/" = true →
          ∃ rest ref, sliceFrom r.Path "/save/".length = some rest ∧
            h.DatasetRefFromPath rest = .ok ref) →
        ∃ p, (h.saveHandler s r).calls = [.Save p] ∧
          (h.saveHandler s r).state = (h.Save s p).2 ∧
          (h.saveHandler s r).response =
            (match (h.Save s p).1 with
              | .error err => .WriteErrResponse StatusInternalServerError err
              | .ok res => .WriteResponse res) ∧
          p.Data = none ∧ p.Title = sp.Title ∧ p.Message = sp.Message ∧
          (sp.Meta ≠ "" →
            p.Metadata = some ⟨"meta.json", sp.Meta⟩ ∧ p.MetadataFilename = "meta.json") ∧
          (sp.Meta = "" → p.Metadata = none) ∧
          (sp.Structure ≠ "" →
            p.Structure = some ⟨"structure.json", sp.Structure⟩ ∧
              p.StructureFilename = "structure.json") ∧
          (sp.Structure = "" → p.Structure = none))) ∧
    (r.ContentType ≠ "application/json" →
      ((∀ err, r.FormFile "file" ≠ .failed err) →
        (∀ err, r.FormFile "metadata" ≠ .failed err) →
        (∀ err, r.FormFile "structure" ≠ .failed err) →
        ∃ p, (h.saveHandler s r).calls = [.Save p] ∧
          (h.saveHandler s r).state = (h.Save s p).2 ∧
          (h.saveHandler s r).response =
            (match (h.Save s p).1 with
              | .error err => .WriteErrResponse StatusInternalServerError err
              | .ok res => .WriteResponse res) ∧
          p.Peername = r.FormValue "peername" ∧ p.URL = r.FormValue "url" ∧
          p.Name = r.FormValue "name" ∧ p.Title = r.FormValue "title" ∧
          p.Message = r.FormValue "message" ∧
          (∀ filename content, r.FormFile "file" = .file filename content →
            p.Data = some ⟨filename, content⟩ ∧ p.DataFilename = filename) ∧
          (∀ filename content, r.FormFile "metadata" = .file filename content →
            p.Metadata = some ⟨filename, content⟩ ∧ p.MetadataFilename = filename) ∧
          (∀ filename content, r.FormFile "structure" = .file filename content →
            p.Structure = some ⟨filename, content⟩ ∧ p.StructureFilename = filename)) ∧
      (((∃ err, r.FormFile "file" = .failed err) ∨
          (∃ err, r.FormFile "metadata" = .failed err) ∨
          (∃ err, r.FormFile "structure" = .failed err)) →
        (∃ e, (h.saveHandler s r).response = .WriteErrResponse StatusBadRequest e) ∧
          (h.saveHandler s r).calls = [] ∧ (h.saveHandler s r).state = s)) := by
  constructor
  · intro hct
    refine ⟨?_, ?_, ?_, ?_⟩
    · intro err hdec
      simp [DatasetHandlers.saveHandler, hct, DatasetHandlers.saveJSON, hdec]
    · intro sp hdec hdata
      simp only [DatasetHandlers.saveHandler, hct, if_true, DatasetHandlers.saveJSON, hdec]
      by_cases hc : stringsContains r.Path "/save/" = true
      · rw [if_pos hc, sliceFrom_of_contains _ _ hc]
        cases hp : h.DatasetRefFromPath ⟨dropBytes "/save/".length r.Path.data⟩ with
        | error err => simp [hp]
        | ok args =>
          by_cases hpeer : args.Peername = "" <;> simp [hp, hpeer, hdata]
      · rw [if_neg hc]
        simp [hdata]
    · intro sp rest err hdec hc hsl hp
      simp [DatasetHandlers.saveHandler, hct, DatasetHandlers.saveJSON, hdec, hc, hsl, hp]
    · intro sp hdec hdata hpath
      simp only [DatasetHandlers.saveHandler, hct, if_true, DatasetHandlers.saveJSON, hdec]
      by_cases hc : stringsContains r.Path "/save/" = true
      · obtain ⟨rest, ref, hsl, hp⟩ := hpath hc
        rw [if_pos hc, hsl]
        simp only [hp]
        by_cases hpeer : ref.Peername = "" <;>
          by_cases hm : sp.Meta = "" <;> by_cases hst : sp.Structure = "" <;>
          simp [hpeer, hdata, hm, hst, calls_saveCall, state_saveCall, response_saveCall]
      · rw [if_neg hc]
        by_cases hm : sp.Meta = "" <;> by_cases hst : sp.Structure = "" <;>
          simp [hdata, hm, hst, calls_saveCall, state_saveCall, response_saveCall]
  · intro hct
    simp only [DatasetHandlers.saveHandler, hct, if_false, DatasetHandlers.saveForm]
    constructor
    · intro hfile hmeta hstruct
      cases hf : r.FormFile "file" with
      | failed err => exact absurd hf (hfile err)
      | missing =>
        cases hm : r.FormFile "metadata" with
        | failed err => exact absurd hm (hmeta err)
        | missing =>
          cases hs : r.FormFile "structure" with
          | failed err => exact absurd hs (hstruct err)
          | missing => simp [calls_saveCall, state_saveCall, response_saveCall]
          | file fn c => simp [calls_saveCall, state_saveCall, response_saveCall]
        | file fn c =>
          cases hs : r.FormFile "structure" with
          | failed err => exact absurd hs (hstruct err)
          | missing => simp [calls_saveCall, state_saveCall, response_saveCall]
          | file fn c => simp [calls_saveCall, state_saveCall, response_saveCall]
      | file fn c =>
        cases hm : r.FormFile "metadata" with
        | failed err => exact absurd hm (hmeta err)
        | missing =>
          cases hs : r.FormFile "structure" with
          | failed err => exact absurd hs (hstruct err)
          | missing => simp [calls_saveCall, state_saveCall, response_saveCall]
          | file fn c => simp [calls_saveCall, state_saveCall, response_saveCall]
        | file fn c =>
          cases hs : r.FormFile "structure" with
          | failed err => exact absurd hs (hstruct err)
          | missing => simp [calls_saveCall, state_saveCall, response_saveCall]
          | file fn c => simp [calls_saveCall, state_saveCall, response_saveCall]
    · intro hfail
      cases hf : r.FormFile "file" with
      | failed err => simp
      | missing =>
        cases hm : r.FormFile "metadata" with
        | failed err => simp
        | missing =>
          cases hs : r.FormFile "structure" with
          | failed err => simp
          | missing => simp [hf, hm, hs] at hfail
          | file fn c => simp [hf, hm, hs] at hfail
        | file fn c =>
          cases hs : r.FormFile "structure" with
          | failed err => simp
          | missing => simp [hf, hm, hs] at hfail
          | file fn c => simp [hf, hm, hs] at hfail
      | file fn c =>
        cases hm : r.FormFile "metadata" with
        | failed err => simp
        | missing =>
          cases hs : r.FormFile "structure" with
          | failed err => simp
          | missing => simp [hf, hm, hs] at hfail
          | file fn c => simp [hf, hm, hs] at hfail
        | file fn c =>
          cases hs : r.FormFile "structure" with
          | failed err => simp
          | missing => simp [hf, hm, hs] at hfail
          | file fn c => simp [hf, hm, hs] at hfail

/-- Witness for C3, on a repository whose `Save` stores the dataset: a JSON request with inline
data is refused; a JSON request for `me/ds` with metadata and structure is saved, the handler
ends in the repository `Save` produced and answers with the reference `Save` returned; so is a
form upload of a body file and a structure file; a JSON request whose path does not parse and a
form upload whose metadata file does not open are refused. -/
theorem saveHandler_payloads_witness :
    ((∃ err, (sampleAdding.saveHandler [] sampleJSONSaveData).response
          = .WriteErrResponse StatusBadRequest err) ∧
        (sampleAdding.saveHandler [] sampleJSONSaveData).calls = [] ∧
        (sampleAdding.saveHandler [] sampleJSONSaveData).state = []) ∧
    ((sampleAdding.saveHandler [] sampleJSONSaveRef).calls
        = [.Save { Peername := "me", Name := "ds",
                   Metadata := some ⟨"meta.json", "meta"⟩, MetadataFilename := "meta.json",
                   Structure := some ⟨"structure.json", "schema"⟩,
                   StructureFilename := "structure.json" }] ∧
      (sampleAdding.saveHandler [] sampleJSONSaveRef).state
        = [{ Peername := "me", Name := "ds", Path := "/ipfs/QmSaved" }] ∧
      (sampleAdding.saveHandler [] sampleJSONSaveRef).response
        = .WriteResponse { Peername := "me", Name := "ds", Path := "/ipfs/QmSaved" }) ∧
    (∃ p, (sampleAdding.saveHandler [] sampleJSONSaveRef).calls = [.Save p] ∧
      (sampleAdding.saveHandler [] sampleJSONSaveRef).state = (sampleAdding.Save [] p).2 ∧
      (sampleAdding.saveHandler [] sampleJSONSaveRef).response =
        (match (sampleAdding.Save [] p).1 with
          | .error err => .WriteErrResponse StatusInternalServerError err
          | .ok res => .WriteResponse res) ∧
      p.Data = none ∧ p.Title = "" ∧ p.Message = "" ∧
      (("meta" : String) ≠ "" →
        p.Metadata = some ⟨"meta.json", "meta"⟩ ∧ p.MetadataFilename = "meta.json") ∧
      (("meta" : String) = "" → p.Metadata = none) ∧
      (("schema" : String) ≠ "" →
        p.Structure = some ⟨"structure.json", "schema"⟩ ∧
          p.StructureFilename = "structure.json") ∧
      (("schema" : String) = "" → p.Structure = none)) ∧
    ((sampleAdding.saveHandler [] sampleFormSave).calls
        = [.Save { Name := "ds", Data := some ⟨"body.csv", "a,b"⟩, DataFilename := "body.csv",
                   Structure := some ⟨"structure.json", "schema"⟩,
                   StructureFilename := "structure.json" }] ∧
      (sampleAdding.saveHandler [] sampleFormSave).state
        = [{ Peername := "", Name := "ds", Path := "/ipfs/QmSaved" }]) ∧
    (∃ p, (sampleAdding.saveHandler [] sampleFormSave).calls = [.Save p] ∧
      (sampleAdding.saveHandler [] sampleFormSave).state = (sampleAdding.Save [] p).2 ∧
      (sampleAdding.saveHandler [] sampleFormSave).response =
        (match (sampleAdding.Save [] p).1 with
          | .error err => .WriteErrResponse StatusInternalServerError err
          | .ok res => .WriteResponse res) ∧
      p.Peername = sampleFormSave.FormValue "peername" ∧
      p.URL = sampleFormSave.FormValue "url" ∧
      p.Name = sampleFormSave.FormValue "name" ∧ p.Title = sampleFormSave.FormValue "title" ∧
      p.Message = sampleFormSave.FormValue "message" ∧
      (∀ filename content, sampleFormSave.FormFile "file" = .file filename content →
        p.Data = some ⟨filename, content⟩ ∧ p.DataFilename = filename) ∧
      (∀ filename content, sampleFormSave.FormFile "metadata" = .file filename content →
        p.Metadata = some ⟨filename, content⟩ ∧ p.MetadataFilename = filename) ∧
      (∀ filename content, sampleFormSave.FormFile "structure" = .file filename content →
        p.Structure = some ⟨filename, content⟩ ∧ p.StructureFilename = filename)) ∧
    ((sampleAdding.saveHandler [] sampleJSONSave).response
        = .WriteErrResponse StatusBadRequest
            (.new "cannot parse empty string as dataset reference") ∧
      (sampleAdding.saveHandler [] sampleJSONSave).calls = [] ∧
      (sampleAdding.saveHandler [] sampleJSONSave).state = []) ∧
    ((∃ e, (sampleAdding.saveHandler [] sampleFormSaveFailing).response
          = .WriteErrResponse StatusBadRequest e) ∧
      (sampleAdding.saveHandler [] sampleFormSaveFailing).calls = [] ∧
      (sampleAdding.saveHandler [] sampleFormSaveFailing).state = []) :=
  ⟨((saveHandler_payloads sampleAdding [] sampleJSONSaveData).1 (by decide)).2.1
      { Name := "ds", Data := "[[1,2]]" } (by decide) (by decide),
    ⟨by decide, by decide, by decide⟩,
    ((saveHandler_payloads sampleAdding [] sampleJSONSaveRef).1 (by decide)).2.2.2
      { Name := "ds", Meta := "meta", Structure := "schema" } (by decide) (by decide)
      (fun _ => ⟨"me/ds", { Peername := "me", Name := "ds" }, by decide, by decide⟩),
    ⟨by decide, by decide⟩,
    ((saveHandler_payloads sampleAdding [] sampleFormSave).2 (by decide)).1
      (fun err hf => by simp [sampleFormSave] at hf)
      (fun err hf => by simp [sampleFormSave] at hf)
      (fun err hf => by simp [sampleFormSave] at hf),
    ((saveHandler_payloads sampleAdding [] sampleJSONSave).1 (by decide)).2.2.1
      { Name := "ds", Meta := "meta", Structure := "schema" } ""
      (.new "cannot parse empty string as dataset reference")
      (by decide) (by decide) (by decide) (by decide),
    ((saveHandler_payloads sampleAdding [] sampleFormSaveFailing).2 (by decide)).2
      (Or.inr (Or.inl ⟨.new "open: no such file", by decide⟩))⟩

/-- C4: for every request whose path parses to a reference, `addHandler` calls `Add` if and only
if the reference has both a Peername and a Name, and then with the parsed reference itself and
nothing else: the handler ends in the state `Add` left and answers with what `Add` returned
(its reference, or status 500 with its error); when either is empty it answers 400 Bad
Request, calls nothing and leaves the state alone. -/
theorem addHandler_requires_peername_and_name {σ : Type} (h : DatasetHandlers σ) (s : σ)
    (r : Request) (rest : String) (ref : DatasetRef)
    (hslice : sliceFrom r.Path "/add/".length = some rest)
    (hparse : h.DatasetRefFromPath rest = .ok ref) :
    ((h.addHandler s r).calls = [.Add ref] ↔ ref.Peername ≠ "" ∧ ref.Name ≠ "") ∧
      (∀ c ∈ (h.addHandler s r).calls, c = .Add ref) ∧
      (ref.Peername ≠ "" ∧ ref.Name ≠ "" →
        (h.addHandler s r).state = (h.Add s ref).2 ∧
          (h.addHandler s r).response =
            (match (h.Add s ref).1 with
              | .error err => .WriteErrResponse StatusInternalServerError err
              | .ok res => .WriteResponse res)) ∧
      (ref.Peername = "" ∨ ref.Name = "" →
        (h.addHandler s r).response = .WriteErrResponse StatusBadRequest
            (.new "need peername and dataset name: '/add/[peername]/[datasetname]'") ∧
          (h.addHandler s r).calls = [] ∧ (h.addHandler s r).state = s) := by
  unfold DatasetHandlers.addHandler
  rw [hslice]
  simp only [hparse]
  by_cases hempty : ref.Peername = "" ∨ ref.Name = ""
  · rw [if_pos hempty]
    have hne : ¬ (ref.Peername ≠ "" ∧ ref.Name ≠ "") := by
      rintro ⟨h1, h2⟩
      rcases hempty with h3 | h3
      · exact h1 h3
      · exact h2 h3
    simp [hne]
  · rw [if_neg hempty]
    have hboth : ref.Peername ≠ "" ∧ ref.Name ≠ "" := by
      constructor
      · exact fun h1 => hempty (Or.inl h1)
      · exact fun h2 => hempty (Or.inr h2)
    cases hadd : h.Add s ref with
    | mk res s1 =>
      cases res <;> simp [hboth, hempty]

/-- Witness for C4: `POST /add/me/ds` against an empty repository whose `Add` pins the path of
the dataset it adds: the handler calls `Add` with the parsed reference, ends in the repository
`Add` produced and answers with the reference `Add` returned. -/
theorem addHandler_requires_peername_and_name_witness :
    sliceFrom "/add/me/ds" "/add/".length = some "me/ds" ∧
      sampleParse "me/ds" = .ok { Peername := "me", Name := "ds" } ∧
      ((sampleAdding.addHandler [] { Path := "/add/me/ds" }).state
          = [{ Peername := "me", Name := "ds", Path := "/ipfs/QmAdded" }] ∧
        (sampleAdding.addHandler [] { Path := "/add/me/ds" }).response
          = .WriteResponse { Peername := "me", Name := "ds", Path := "/ipfs/QmAdded" }) ∧
      (sampleAdding.addHandler [] { Path := "/add/me/ds" }).calls
        = [.Add { Peername := "me", Name := "ds" }] ∧
      ((sampleAdding.addHandler [] { Path := "/add/me/ds" }).state
          = (sampleAdding.Add [] { Peername := "me", Name := "ds" }).2 ∧
        (sampleAdding.addHandler [] { Path := "/add/me/ds" }).response =
          (match (sampleAdding.Add [] { Peername := "me", Name := "ds" }).1 with
            | .error err => .WriteErrResponse StatusInternalServerError err
            | .ok res => .WriteResponse res)) :=
  ⟨by decide, by decide, ⟨by decide, by decide⟩,
    (addHandler_requires_peername_and_name sampleAdding [] { Path := "/add/me/ds" } "me/ds"
      { Peername := "me", Name := "ds" } (by decide) (by decide)).1.mpr ⟨by decide, by decide⟩,
    (addHandler_requires_peername_and_name sampleAdding [] { Path := "/add/me/ds" } "me/ds"
      { Peername := "me", Name := "ds" } (by decide) (by decide)).2.2.1
      ⟨by decide, by decide⟩⟩

/-- C5: `getHandler` tests only the Name.  Whenever the parsed reference has an empty Name the
request is rejected with 400 "no dataset name or hash given" and `Get` is not called, also when
the reference has a Path: `GET /me@/ipfs/QmUNLL` parses to Peername `me`, no Name and Path
`/ipfs/QmUNLL`, and is rejected. -/
theorem getHandler_rejects_path_without_name :
    (∀ (h : DatasetHandlers (List DatasetRef)) (s : List DatasetRef) (r : Request)
        (ref : DatasetRef), h.DatasetRefFromPath r.Path = .ok ref → ref.Name = "" →
        (h.getHandler s r).response
            = .WriteErrResponse StatusBadRequest (.new "no dataset name or hash given") ∧
          (h.getHandler s r).calls = []) ∧
      sampleParse "/me@/ipfs/QmUNLL"
        = .ok { Peername := "me", Name := "", Path := "/ipfs/QmUNLL" } ∧
      (sampleHandlers.getHandler [] { Path := "/me@/ipfs/QmUNLL" }).response
        = .WriteErrResponse StatusBadRequest (.new "no dataset name or hash given") ∧
      (sampleHandlers.getHandler [] { Path := "/me@/ipfs/QmUNLL" }).calls = [] := by
  refine ⟨?_, by decide, by decide, by decide⟩
  intro h s r ref hparse hname
  simp [DatasetHandlers.getHandler, hparse, hname]

/-- C6: `removeHandler` calls `Remove` only directly after a successful `Get` on the parsed
reference, in the state `Get` left, and with exactly the reference `Get` returned; when `Get`
fails the handler answers with that error (status 400), has called only `Get`, never `Remove`,
does not panic, and ends in the state the failed `Get` left (the starting state when a failed
`Get` changes nothing), so removing an already removed reference again gives an error response
and no change. -/
theorem removeHandler_removes_what_get_returned {σ : Type} (h : DatasetHandlers σ) (s : σ)
    (r : Request) :
    (∀ ref, ref ∈ (h.removeHandler s r).removes →
        ∃ rest p s1, sliceFrom r.Path "/remove/".length = some rest ∧
          h.DatasetRefFromPath rest = .ok p ∧ h.Get s p = (.ok ref, s1) ∧
          (h.removeHandler s r).calls.take 2 = [.Get p, .Remove ref] ∧
          (h.removeHandler s r).state = (h.Remove s1 ref).2) ∧
      (∀ rest p ref s1, sliceFrom r.Path "/remove/".length = some rest →
        h.DatasetRefFromPath rest = .ok p → h.Get s p = (.ok ref, s1) →
        (h.removeHandler s r).removes = [ref]) ∧
      (∀ rest p err s1, sliceFrom r.Path "/remove/".length = some rest →
        h.DatasetRefFromPath rest = .ok p → h.Get s p = (.error err, s1) →
        (h.removeHandler s r).response = .WriteErrResponse StatusBadRequest err ∧
          (h.removeHandler s r).calls = [.Get p] ∧
          (h.removeHandler s r).removes = [] ∧
          (h.removeHandler s r).state = s1) := by
  refine ⟨?_, ?_, ?_⟩
  · intro ref hmem
    unfold DatasetHandlers.removeHandler at hmem ⊢
    cases hsl : sliceFrom r.Path "/remove/".length with
    | none => simp [hsl, Served.removes] at hmem
    | some rest =>
      cases hp : h.DatasetRefFromPath rest with
      | error err => simp [hsl, hp, Served.removes] at hmem
      | ok p =>
        cases hg : h.Get s p with
        | mk res s1 =>
          cases res with
          | error err => simp [hsl, hp, hg, Served.removes] at hmem
          | ok ref1 =>
            cases hr : h.Remove s1 ref1 with
            | mk res2 s2 =>
              cases res2 with
              | error err =>
                simp [hsl, hp, hg, hr, Served.removes] at hmem
                subst hmem
                exact ⟨rest, p, s1, rfl, hp, hg, by simp [hp, hg, hr], by simp [hp, hg, hr]⟩
              | ok b =>
                simp [hsl, hp, hg, hr, Served.removes] at hmem
                subst hmem
                exact ⟨rest, p, s1, rfl, hp, hg, by simp [hp, hg, hr], by simp [hp, hg, hr]⟩
  · intro rest p ref s1 hsl hp hg
    unfold DatasetHandlers.removeHandler
    cases hr : h.Remove s1 ref with
    | mk res2 s2 =>
      cases res2 <;> simp [hsl, hp, hg, hr, Served.removes]
  · intro rest p err s1 hsl hp hg
    simp [DatasetHandlers.removeHandler, hsl, hp, hg, Served.removes]

/-- Witness for C6: `me/ds` is removed from the sample repository, then removed again; the
second request finds nothing, answers 400 with the error of `Get`, calls no `Remove` and leaves
the (now empty) repository as it is. -/
theorem removeHandler_removes_what_get_returned_witness :
    (sampleHandlers.removeHandler sampleRepo sampleRemove).removes = sampleRepo ∧
      (sampleHandlers.removeHandler sampleRepo sampleRemove).state = [] ∧
      ((sampleHandlers.removeHandler [] sampleRemove).response
          = .WriteErrResponse StatusBadRequest (.new "repo: not found") ∧
        (sampleHandlers.removeHandler [] sampleRemove).calls
          = [.Get { Peername := "me", Name := "ds" }] ∧
        (sampleHandlers.removeHandler [] sampleRemove).removes = [] ∧
        (sampleHandlers.removeHandler [] sampleRemove).state = []) :=
  ⟨by decide, by decide,
    (removeHandler_removes_what_get_returned sampleHandlers [] sampleRemove).2.2 "me/ds"
      { Peername := "me", Name := "ds" } (.new "repo: not found") [] (by decide) (by decide)
      (by decide)⟩

/-- C7, as stated, fails: the list parameters of the request `/list/me?orderBy=name` carry the
ordering key `name`, while both handlers call `List` with `OrderBy = "created"`. -/
theorem listHandler_ignores_requested_order :
    (sampleHandlers.ListParamsFromRequest sampleListByName).OrderBy = "name" ∧
      (sampleHandlers.listHandler sampleRepo sampleListByName).lists
        = [{ OrderBy := "created", Limit := 25 }] ∧
      (sampleHandlers.peerListHandler sampleRepo sampleListByName).lists
        = [{ Peername := "me", OrderBy := "created", Limit := 25 }] ∧
      ¬ (∀ (h : DatasetHandlers (List DatasetRef)) (s : List DatasetRef) (r : Request),
          (∀ p ∈ (h.listHandler s r).lists, p.OrderBy = (h.ListParamsFromRequest r).OrderBy) ∧
          (∀ p ∈ (h.peerListHandler s r).lists,
            p.OrderBy = (h.ListParamsFromRequest r).OrderBy)) := by
  refine ⟨by decide, by decide, by decide, ?_⟩
  intro hall
  have h1 := (hall sampleHandlers sampleRepo sampleListByName).1
    { OrderBy := "created", Limit := 25 } (by decide)
  revert h1
  decide

/-- C7 (amended): the `OrderBy` value that `listHandler` and `peerListHandler` pass to `List`
is always the fixed key `created`, whatever ordering key the list parameters of the request
carry; the other parameters are those produced by `ListParamsFromRequest`, with, for
`peerListHandler`, the Peername of the parsed reference.  `listHandler` calls `List` exactly
once, `peerListHandler` at most once. -/
theorem listHandlers_order_by_created {σ : Type} (h : DatasetHandlers σ) (s : σ) (r : Request) :
    (h.listHandler s r).lists = [{ h.ListParamsFromRequest r with OrderBy := "created" }] ∧
      (∀ p ∈ (h.peerListHandler s r).lists,
        p.OrderBy = "created" ∧
          ∃ rest ref, sliceFrom r.Path "/list/".length = some rest ∧
            h.DatasetRefFromPath rest = .ok ref ∧ h.IsPeerRef ref = true ∧
            (h.peerListHandler s r).lists = [p] ∧
            p = { h.ListParamsFromRequest r with
                  Peername := ref.Peername, OrderBy := "created" }) := by
  constructor
  · unfold DatasetHandlers.listHandler
    cases hl : h.List s { h.ListParamsFromRequest r with OrderBy := "created" } with
    | mk res s1 =>
      cases res with
      | error err => simp [hl, Served.lists]
      | ok refs =>
        cases hw : h.writePageError refs
            { h.ListParamsFromRequest r with OrderBy := "created" } <;>
          simp [hl, hw, Served.lists]
  · intro p hmem
    unfold DatasetHandlers.peerListHandler at hmem ⊢
    cases hsl : sliceFrom r.Path "/list/".length with
    | none => simp [hsl, Served.lists] at hmem
    | some rest =>
      cases hp : h.DatasetRefFromPath rest with
      | error err => simp [hsl, hp, Served.lists] at hmem
      | ok ref =>
        cases hpeer : h.IsPeerRef ref with
        | false => simp [hsl, hp, hpeer, Served.lists] at hmem
        | true =>
          cases hl : h.List s { h.ListParamsFromRequest r with
              Peername := ref.Peername, OrderBy := "created" } with
          | mk res s1 =>
            cases res with
            | error err =>
              simp [hsl, hp, hpeer, hl, Served.lists] at hmem
              subst hmem
              exact ⟨rfl, rest, ref, rfl, hp, hpeer, by simp [hp, hpeer, hl, Served.lists], rfl⟩
            | ok refs =>
              cases hw : h.writePageError refs { h.ListParamsFromRequest r with
                  Peername := ref.Peername, OrderBy := "created" } with
              | none =>
                simp [hsl, hp, hpeer, hl, hw, Served.lists] at hmem
                subst hmem
                exact ⟨rfl, rest, ref, rfl, hp, hpeer,
                  by simp [hp, hpeer, hl, hw, Served.lists], rfl⟩
              | some err =>
                simp [hsl, hp, hpeer, hl, hw, Served.lists] at hmem
                subst hmem
                exact ⟨rfl, rest, ref, rfl, hp, hpeer,
                  by simp [hp, hpeer, hl, hw, Served.lists], rfl⟩

/-! ## Properties of `cmd/add.go` and `cmd/registry.go` -/

theorem AddOptions.Run_eq_eachRef {σ : Type} (o : Requests σ) (s : σ) (args : List String) :
    AddOptions.Run o s args =
      eachRef o.parseCmdLineDatasetRef o.Add CmdEvent.Add
        (fun ref res => [.printDatasetRefInfo 1 res,
          .printInfo "Successfully added dataset %s" ref]) s args := by
  induction args generalizing s with
  | nil => rfl
  | cons arg args ih =>
    simp only [AddOptions.Run, eachRef]
    cases o.parseCmdLineDatasetRef arg with
    | error err => rfl
    | ok ref =>
      cases hadd : o.Add s ref with
      | mk res s1 => cases res <;> simp [hadd, ih]

theorem RegistryOptions.Publish_eq_eachRef {σ : Type} (o : Requests σ) (s : σ)
    (args : List String) :
    RegistryOptions.Publish o s args =
      eachRef o.ParseDatasetRef (fun s ref => o.Publish s { Ref := ref })
        (fun ref err => .Publish { Ref := ref } err)
        (fun ref _ => [.printInfo "published dataset %s" ref]) s args := by
  induction args generalizing s with
  | nil => rfl
  | cons arg args ih =>
    simp only [RegistryOptions.Publish, eachRef]
    cases o.ParseDatasetRef arg with
    | error err => rfl
    | ok ref =>
      cases hpub : o.Publish s { Ref := ref } with
      | mk res s1 => cases res <;> simp [hpub, ih]

theorem RegistryOptions.Unpublish_eq_eachRef {σ : Type} (o : Requests σ) (s : σ)
    (args : List String) :
    RegistryOptions.Unpublish o s args =
      eachRef o.ParseDatasetRef o.Unpublish CmdEvent.Unpublish
        (fun ref _ => [.printInfo "unpublished dataset %s" ref]) s args := by
  induction args generalizing s with
  | nil => rfl
  | cons arg args ih =>
    simp only [RegistryOptions.Unpublish, eachRef]
    cases o.ParseDatasetRef arg with
    | error err => rfl
    | ok ref =>
      cases hun : o.Unpublish s ref with
      | mk res s1 => cases res <;> simp [hun, ih]

theorem requests_after {σ : Type} (evs : List CmdEvent) (r : CmdResult σ) :
    (r.after evs).requests = evs.filterMap CmdEvent.request? ++ r.requests := by
  simp [CmdResult.after, CmdResult.requests, List.filterMap_append]

theorem eachRef_stops {σ β : Type} (parse : String → Except Error DatasetRef)
    (req : σ → DatasetRef → Except Error β × σ) (ev : DatasetRef → Option Error → CmdEvent)
    (prints : DatasetRef → β → List CmdEvent)
    (hev : ∀ ref err, (ev ref err).request? = some (ref, err))
    (hprints : ∀ ref res, (prints ref res).filterMap CmdEvent.request? = [])
    (s : σ) (args : List String) :
    StopsAtFirstError parse req s args (eachRef parse req ev prints s args) := by
  induction args generalizing s with
  | nil =>
    exact ⟨[], [], s, List.Forall₂.nil, rfl, Or.inl ⟨rfl, rfl, rfl, rfl⟩⟩
  | cons arg args ih =>
    cases hp : parse arg with
    | error err =>
      refine ⟨[], [], s, List.Forall₂.nil, rfl, Or.inr (Or.inl ⟨arg, args, err, rfl, hp, ?_⟩)⟩
      simp [eachRef, hp, CmdResult.requests]
    | ok ref =>
      cases hr : req s ref with
      | mk res s1 =>
        cases res with
        | error err =>
          refine ⟨[], [], s, List.Forall₂.nil, rfl,
            Or.inr (Or.inr ⟨arg, args, ref, err, s1, rfl, hp, hr, ?_⟩)⟩
          simp [eachRef, hp, hr, CmdResult.requests, hev]
        | ok b =>
          obtain ⟨done, refs, s2, hall, hsucc, hcases⟩ := ih s1
          have hrun : eachRef parse req ev prints s (arg :: args) =
              (eachRef parse req ev prints s1 args).after (ev ref none :: prints ref b) := by
            simp [eachRef, hp, hr]
          have hreq : (eachRef parse req ev prints s (arg :: args)).requests =
              (ref, none) :: (eachRef parse req ev prints s1 args).requests := by
            rw [hrun, requests_after]
            simp [List.filterMap_cons, hev, hprints]
          have hout : (eachRef parse req ev prints s (arg :: args)).outcome =
              (eachRef parse req ev prints s1 args).outcome := by
            rw [hrun]; rfl
          have hst : (eachRef parse req ev prints s (arg :: args)).state =
              (eachRef parse req ev prints s1 args).state := by
            rw [hrun]; rfl
          refine ⟨arg :: done, ref :: refs, s2, List.Forall₂.cons hp hall, ?_, ?_⟩
          · simp [allSucceed, hr, hsucc]
          · rw [hreq, hout, hst]
            rcases hcases with ⟨h1, h2, h3, h4⟩ | ⟨a, rest, err, h1, h2, h3, h4, h5⟩ |
                ⟨a, rest, ref1, err, s3, h1, h2, h3, h4, h5, h6⟩
            · exact Or.inl ⟨by rw [h1], h2, h3, by rw [h4]; rfl⟩
            · exact Or.inr (Or.inl ⟨a, rest, err, by rw [h1]; rfl, h2, h3, h4, by rw [h5]; rfl⟩)
            · exact Or.inr (Or.inr ⟨a, rest, ref1, err, s3, by rw [h1]; rfl, h2, h3, h4, h5,
                by rw [h6]; rfl⟩)

theorem eachRef_returns_nil_iff {σ β : Type} (parse : String → Except Error DatasetRef)
    (req : σ → DatasetRef → Except Error β × σ) (ev : DatasetRef → Option Error → CmdEvent)
    (prints : DatasetRef → β → List CmdEvent) (s : σ) (args : List String) :
    (eachRef parse req ev prints s args).outcome = .returned none ↔
      AllParseAndSucceed parse req s args := by
  induction args generalizing s with
  | nil =>
    simp only [eachRef, true_iff]
    exact ⟨[], s, List.Forall₂.nil, rfl⟩
  | cons arg args ih =>
    cases hp : parse arg with
    | error err =>
      simp only [eachRef, hp]
      constructor
      · intro h; cases h
      · rintro ⟨refs, s1, hall, _⟩
        cases hall with
        | cons h1 _ => rw [hp] at h1; cases h1
    | ok ref =>
      cases hr : req s ref with
      | mk res s1 =>
        cases res with
        | error err =>
          simp only [eachRef, hp, hr]
          constructor
          · intro h; cases h
          · rintro ⟨refs, s2, hall, hsucc⟩
            cases hall with
            | cons h1 _ =>
              rw [hp] at h1
              cases h1
              simp [allSucceed, hr] at hsucc
        | ok b =>
          have hout : (eachRef parse req ev prints s (arg :: args)).outcome =
              (eachRef parse req ev prints s1 args).outcome := by
            simp [eachRef, hp, hr, CmdResult.after]
          rw [hout, ih s1]
          constructor
          · rintro ⟨refs, s2, hall, hsucc⟩
            exact ⟨ref :: refs, s2, List.Forall₂.cons hp hall, by simp [allSucceed, hr, hsucc]⟩
          · rintro ⟨refs, s2, hall, hsucc⟩
            cases hall with
            | cons h1 htail =>
              rw [hp] at h1
              cases h1
              simp only [allSucceed, hr] at hsucc
              exact ⟨_, s2, htail, hsucc⟩

/-- C8: each of `AddOptions.Run`, `RegistryOptions.Publish` and `RegistryOptions.Unpublish`
issues one request per argument, in argument order, with the parsed reference, up to the first
argument that fails to parse or whose request fails; it returns that first error without
issuing a request for any later argument; and it returns nil if and only if every argument
parses and every request succeeds. -/
theorem commands_return_first_error {σ : Type} (o : Requests σ) (s : σ) (args : List String) :
    (StopsAtFirstError o.parseCmdLineDatasetRef o.Add s args (AddOptions.Run o s args) ∧
      ((AddOptions.Run o s args).outcome = .returned none ↔
        AllParseAndSucceed o.parseCmdLineDatasetRef o.Add s args)) ∧
    (StopsAtFirstError o.ParseDatasetRef (fun s ref => o.Publish s { Ref := ref }) s args
        (RegistryOptions.Publish o s args) ∧
      ((RegistryOptions.Publish o s args).outcome = .returned none ↔
        AllParseAndSucceed o.ParseDatasetRef (fun s ref => o.Publish s { Ref := ref }) s args)) ∧
    (StopsAtFirstError o.ParseDatasetRef o.Unpublish s args (RegistryOptions.Unpublish o s args) ∧
      ((RegistryOptions.Unpublish o s args).outcome = .returned none ↔
        AllParseAndSucceed o.ParseDatasetRef o.Unpublish s args)) := by
  rw [AddOptions.Run_eq_eachRef, RegistryOptions.Publish_eq_eachRef,
    RegistryOptions.Unpublish_eq_eachRef]
  refine ⟨⟨eachRef_stops _ _ _ _ ?_ ?_ s args, eachRef_returns_nil_iff _ _ _ _ s args⟩,
    ⟨eachRef_stops _ _ _ _ ?_ ?_ s args, eachRef_returns_nil_iff _ _ _ _ s args⟩,
    ⟨eachRef_stops _ _ _ _ ?_ ?_ s args, eachRef_returns_nil_iff _ _ _ _ s args⟩⟩ <;>
  intro _ _ <;> rfl

/-- Witness for C7: the sample request is listed under the key `created`. -/
theorem listHandlers_order_by_created_witness :
    (sampleHandlers.listHandler sampleRepo sampleListByName).lists
      = [{ sampleHandlers.ListParamsFromRequest sampleListByName with OrderBy := "created" }] :=
  (listHandlers_order_by_created sampleHandlers sampleRepo sampleListByName).1

/-! ## Properties of `cmd/render.go` -/

/-- C9, as stated, fails: the reference `me` carries a peername and no dataset name, and
`Validate` returns nil for it. -/
theorem RenderOptions.Validate_accepts_peername_only :
    sampleParse "me" = .ok { Peername := "me", Name := "" } ∧
      RenderOptions.Validate (.new "bad arguments provided") { Ref := "me" } = none ∧
      ¬ (∀ (parse : String → Except Error DatasetRef) (ErrBadArgs : Error) (o : RenderOptions),
          (¬ ∃ ref, parse o.Ref = .ok ref ∧ ref.Peername ≠ "" ∧ ref.Name ≠ "") →
          ∃ msg, RenderOptions.Validate ErrBadArgs o = some (.libError ErrBadArgs msg)) := by
  refine ⟨by decide, by decide, ?_⟩
  intro hall
  obtain ⟨msg, hmsg⟩ := hall sampleParse (.new "bad arguments provided") { Ref := "me" }
    (by
      rintro ⟨ref, hparse, _, hname⟩
      have hp : sampleParse "me" = .ok { Peername := "me", Name := "" } := by decide
      have hp2 : sampleParse ({ Ref := "me" } : RenderOptions).Ref = sampleParse "me" := rfl
      rw [hp2, hp] at hparse
      cases hparse
      exact hname rfl)
  have hv : RenderOptions.Validate (.new "bad arguments provided") { Ref := "me" } = none := by
    decide
  rw [hv] at hmsg
  cases hmsg

/-- C9 (amended): `Validate` returns the `ErrBadArgs` error exactly when `Ref` is empty (as it
is when no positional argument was given) and nil for every non-empty `Ref`, whether or not
that `Ref` carries both a peername and a dataset name; `Complete` sets `Ref` to the first
positional argument and ignores the rest, and leaves `Ref` as it was when there is none. -/
theorem RenderOptions.Validate_checks_empty_ref (ErrBadArgs : Error) (o : RenderOptions)
    (factoryErr : Option Error) :
    ((∃ msg, o.Validate ErrBadArgs = some (.libError ErrBadArgs msg)) ↔ o.Ref = "") ∧
      (o.Validate ErrBadArgs = none ↔ o.Ref ≠ "") ∧
      (∀ a rest, (o.Complete factoryErr (a :: rest)).1 = { o with Ref := a }) ∧
      (o.Complete factoryErr []).1 = o ∧
      (∃ msg, (({} : RenderOptions).Complete factoryErr []).1.Validate ErrBadArgs
        = some (.libError ErrBadArgs msg)) := by
  refine ⟨?_, ?_, fun _ _ => rfl, rfl, ⟨_, rfl⟩⟩
  · by_cases hr : o.Ref = "" <;> simp [RenderOptions.Validate, hr]
  · by_cases hr : o.Ref = "" <;> simp [RenderOptions.Validate, hr]

/-! ## Properties of `cmd/info.go` -/

/-- C10: when `Format` is non-empty and either does not parse to a data format or parses to a
format other than JSON, `InfoOptions.Run` returns an error having issued no request and written
nothing, in the state it started in, and with the same result whatever the references are (no
reference has been looked at); when `Format` is empty or parses to JSON, no format error is
returned: the run is the loop over the references. -/
theorem InfoOptions.Run_checks_format_first {σ : Type} (env : Requests σ) (o : InfoOptions)
    (s : σ) :
    (o.Format ≠ "" →
        ((∃ e, env.ParseDataFormatString o.Format = .error e) ∨
          ∃ f, env.ParseDataFormatString o.Format = .ok f ∧ f ≠ env.JSONDataFormat) →
        (∃ err, (InfoOptions.Run env o s).outcome = .returned (some err)) ∧
          (InfoOptions.Run env o s).events = [] ∧
          (InfoOptions.Run env o s).state = s ∧
          ∀ refs, InfoOptions.Run env { o with Refs := refs } s = InfoOptions.Run env o s) ∧
      (o.Format = "" ∨ env.ParseDataFormatString o.Format = .ok env.JSONDataFormat →
        InfoOptions.Run env o s = InfoOptions.runRefs env o s 0 o.Refs) := by
  constructor
  · intro hf hbad
    rcases hbad with ⟨e, he⟩ | ⟨f, hparse, hne⟩
    · simp [InfoOptions.Run, hf, he]
    · simp [InfoOptions.Run, hf, hparse, hne]
  · intro hgood
    rcases hgood with hf | hparse
    · simp [InfoOptions.Run, hf]
    · by_cases hf : o.Format = ""
      · simp [InfoOptions.Run, hf]
      · simp [InfoOptions.Run, hf, hparse]

/-- Witness for C10: `qri info --format csv me/ds` stops at the format check, and
`qri info --format json me/ds` runs the loop. -/
theorem InfoOptions.Run_checks_format_first_witness :
    ((∃ err, (InfoOptions.Run sampleRequests { Refs := ["me/ds"], Format := "csv" }
          sampleRepo).outcome = .returned (some err)) ∧
      (InfoOptions.Run sampleRequests { Refs := ["me/ds"], Format := "csv" } sampleRepo).events
        = [] ∧
      (InfoOptions.Run sampleRequests { Refs := ["me/ds"], Format := "csv" } sampleRepo).state
        = sampleRepo ∧
      ∀ refs, InfoOptions.Run sampleRequests
          { ({ Refs := ["me/ds"], Format := "csv" } : InfoOptions) with Refs := refs } sampleRepo
        = InfoOptions.Run sampleRequests { Refs := ["me/ds"], Format := "csv" } sampleRepo) ∧
    InfoOptions.Run sampleRequests { Refs := ["me/ds"], Format := "json" } sampleRepo
      = InfoOptions.runRefs sampleRequests { Refs := ["me/ds"], Format := "json" } sampleRepo 0
          ["me/ds"] :=
  ⟨(InfoOptions.Run_checks_format_first sampleRequests { Refs := ["me/ds"], Format := "csv" }
      sampleRepo).1 (by decide) (Or.inr ⟨2, by decide, by decide⟩),
    (InfoOptions.Run_checks_format_first sampleRequests { Refs := ["me/ds"], Format := "json" }
      sampleRepo).2 (Or.inr (by decide))⟩

/-! ## Properties of `initHandler` and `dataHandler` -/

theorem inits_initCall {σ : Type} (h : InitRequests σ) (s : σ) (p : InitParams) :
    (DatasetHandlers.initCall h s p).inits = [p] := by
  unfold DatasetHandlers.initCall
  split <;> rfl

/-- C11, as stated, fails for the other content types: a form post that is not multipart (here
`application/x-www-form-urlencoded`, with a url and a name) makes every file look-up fail, the
handler answers 400 "error opening data file" and `Init` is not called. -/
theorem initHandler_form_without_init :
    sampleInitUrlencoded.ContentType ≠ "application/json" ∧
      (DatasetHandlers.initHandler sampleInit [] sampleInitUrlencoded).response
        = .WriteErrResponse StatusBadRequest
            (.new "error opening data file: request Content-Type isn't multipart/form-data") ∧
      (DatasetHandlers.initHandler sampleInit [] sampleInitUrlencoded).inits = [] ∧
      ¬ (∀ (h : InitRequests (List DatasetRef)) (s : List DatasetRef) (r : Request),
          r.ContentType ≠ "application/json" →
          ∃ p, (DatasetHandlers.initHandler h s r).inits = [p] ∧
            p.Peername = r.FormValue "peername" ∧ p.URL = r.FormValue "url" ∧
            p.Name = r.FormValue "name") := by
  refine ⟨by decide, by decide, by decide, ?_⟩
  intro hall
  obtain ⟨p, hp, _⟩ := hall sampleInit [] sampleInitUrlencoded (by decide)
  have hs : (DatasetHandlers.initHandler sampleInit [] sampleInitUrlencoded).inits = [] := by
    decide
  rw [hs] at hp
  cases hp

theorem state_initCall {σ : Type} (h : InitRequests σ) (s : σ) (p : InitParams) :
    (DatasetHandlers.initCall h s p).state = (h.Init s p).2 := by
  unfold DatasetHandlers.initCall
  cases hinit : h.Init s p with
  | mk res s1 => cases res <;> rfl

theorem response_initCall {σ : Type} (h : InitRequests σ) (s : σ) (p : InitParams) :
    (DatasetHandlers.initCall h s p).response =
      (match (h.Init s p).1 with
        | .error err => .WriteErrResponse StatusInternalServerError err
        | .ok res => .WriteDataset res.Dataset) := by
  unfold DatasetHandlers.initCall
  cases hinit : h.Init s p with
  | mk res s1 => cases res <;> rfl

/-- C11 (amended): for a request with Content-Type `application/json`, `initHandler` answers 400
Bad Request, calls nothing and leaves the state alone when the body fails to decode or the
decoded url is empty, and calls `Init` once, with the decoded params, when the url is
non-empty.  For every other content type no url is required: when none of the three form file
look-ups (`file`, `metadata`, `structure`) fails, `Init` is called once with peername, url and
name taken from the form values and with the uploaded parts; when one of them fails, the handler
answers 400, calls nothing and leaves the state alone.  Wherever `Init` is called, the handler
ends in the state `Init` left and answers with what `Init` returned: the dataset of its
reference, or status 500 with its error. -/
theorem initHandler_json_needs_url {σ : Type} (h : InitRequests σ) (s : σ) (r : Request) :
    (r.ContentType = "application/json" →
        (∀ err, h.decodeInitParams r.Body = .error err →
          (∃ e, (DatasetHandlers.initHandler h s r).response
              = .WriteErrResponse StatusBadRequest e) ∧
            (DatasetHandlers.initHandler h s r).calls = [] ∧
            (DatasetHandlers.initHandler h s r).state = s) ∧
        (∀ p, h.decodeInitParams r.Body = .ok p → p.URL = "" →
          (∃ e, (DatasetHandlers.initHandler h s r).response
              = .WriteErrResponse StatusBadRequest e) ∧
            (DatasetHandlers.initHandler h s r).calls = [] ∧
            (DatasetHandlers.initHandler h s r).state = s) ∧
        (∀ p, h.decodeInitParams r.Body = .ok p → p.URL ≠ "" →
          (DatasetHandlers.initHandler h s r).inits = [p] ∧
            (DatasetHandlers.initHandler h s r).state = (h.Init s p).2 ∧
            (DatasetHandlers.initHandler h s r).response =
              (match (h.Init s p).1 with
                | .error err => .WriteErrResponse StatusInternalServerError err
                | .ok res => .WriteDataset res.Dataset))) ∧
    (r.ContentType ≠ "application/json" →
        ((∀ err, r.FormFile "file" ≠ .failed err) →
          (∀ err, r.FormFile "metadata" ≠ .failed err) →
          (∀ err, r.FormFile "structure" ≠ .failed err) →
          ∃ p, (DatasetHandlers.initHandler h s r).inits = [p] ∧
            (DatasetHandlers.initHandler h s r).state = (h.Init s p).2 ∧
            (DatasetHandlers.initHandler h s r).response =
              (match (h.Init s p).1 with
                | .error err => .WriteErrResponse StatusInternalServerError err
                | .ok res => .WriteDataset res.Dataset) ∧
            p.Peername = r.FormValue "peername" ∧ p.URL = r.FormValue "url" ∧
            p.Name = r.FormValue "name" ∧
            (∀ filename content, r.FormFile "file" = .file filename content →
              p.Data = some ⟨filename, content⟩ ∧ p.DataFilename = filename) ∧
            (∀ filename content, r.FormFile "metadata" = .file filename content →
              p.Metadata = some ⟨filename, content⟩ ∧ p.MetadataFilename = filename) ∧
            (∀ filename content, r.FormFile "structure" = .file filename content →
              p.Structure = some ⟨filename, content⟩ ∧ p.StructureFilename = filename)) ∧
        (((∃ err, r.FormFile "file" = .failed err) ∨
            (∃ err, r.FormFile "metadata" = .failed err) ∨
            (∃ err, r.FormFile "structure" = .failed err)) →
          (∃ e, (DatasetHandlers.initHandler h s r).response
              = .WriteErrResponse StatusBadRequest e) ∧
            (DatasetHandlers.initHandler h s r).calls = [] ∧
            (DatasetHandlers.initHandler h s r).state = s)) := by
  constructor
  · intro hct
    refine ⟨?_, ?_, ?_⟩
    · intro err hdec
      simp [DatasetHandlers.initHandler, hct, hdec]
    · intro p hdec hurl
      simp [DatasetHandlers.initHandler, hct, hdec, hurl]
    · intro p hdec hurl
      simp [DatasetHandlers.initHandler, hct, hdec, hurl, inits_initCall, state_initCall,
        response_initCall]
  · intro hct
    simp only [DatasetHandlers.initHandler, hct, if_false, DatasetHandlers.initForm]
    constructor
    · intro hfile hmeta hstruct
      cases hf : r.FormFile "file" with
      | failed err => exact absurd hf (hfile err)
      | missing =>
        cases hm : r.FormFile "metadata" with
        | failed err => exact absurd hm (hmeta err)
        | missing =>
          cases hs : r.FormFile "structure" with
          | failed err => exact absurd hs (hstruct err)
          | missing => simp [inits_initCall, state_initCall, response_initCall]
          | file fn c => simp [inits_initCall, state_initCall, response_initCall]
        | file fn c =>
          cases hs : r.FormFile "structure" with
          | failed err => exact absurd hs (hstruct err)
          | missing => simp [inits_initCall, state_initCall, response_initCall]
          | file fn c => simp [inits_initCall, state_initCall, response_initCall]
      | file fn c =>
        cases hm : r.FormFile "metadata" with
        | failed err => exact absurd hm (hmeta err)
        | missing =>
          cases hs : r.FormFile "structure" with
          | failed err => exact absurd hs (hstruct err)
          | missing => simp [inits_initCall, state_initCall, response_initCall]
          | file fn c => simp [inits_initCall, state_initCall, response_initCall]
        | file fn c =>
          cases hs : r.FormFile "structure" with
          | failed err => exact absurd hs (hstruct err)
          | missing => simp [inits_initCall, state_initCall, response_initCall]
          | file fn c => simp [inits_initCall, state_initCall, response_initCall]
    · intro hfail
      cases hf : r.FormFile "file" with
      | failed err => simp
      | missing =>
        cases hm : r.FormFile "metadata" with
        | failed err => simp
        | missing =>
          cases hs : r.FormFile "structure" with
          | failed err => simp
          | missing => simp [hf, hm, hs] at hfail
          | file fn c => simp [hf, hm, hs] at hfail
        | file fn c =>
          cases hs : r.FormFile "structure" with
          | failed err => simp
          | missing => simp [hf, hm, hs] at hfail
          | file fn c => simp [hf, hm, hs] at hfail
      | file fn c =>
        cases hm : r.FormFile "metadata" with
        | failed err => simp
        | missing =>
          cases hs : r.FormFile "structure" with
          | failed err => simp
          | missing => simp [hf, hm, hs] at hfail
          | file fn c => simp [hf, hm, hs] at hfail
        | file fn c =>
          cases hs : r.FormFile "structure" with
          | failed err => simp
          | missing => simp [hf, hm, hs] at hfail
          | file fn c => simp [hf, hm, hs] at hfail

/-- Witness for C11, on a repository whose `Init` stores the new dataset: a JSON request with a
url reaches `Init` with the decoded params, and a multipart post without a url reaches `Init`
with the form values and the uploaded body; in both the handler ends in the repository `Init`
produced and answers with the dataset `Init` returned.  A JSON request without a url and a form
post whose look-ups fail are refused. -/
theorem initHandler_json_needs_url_witness :
    ((DatasetHandlers.initHandler sampleInitStoring [] sampleInitJSON).inits
        = [{ URL := "http://example.com/data.csv", Name := "ds" }] ∧
      (DatasetHandlers.initHandler sampleInitStoring [] sampleInitJSON).state
        = [{ Peername := "me", Name := "ds", Path := "/ipfs/QmInit", Dataset := some "ds" }] ∧
      (DatasetHandlers.initHandler sampleInitStoring [] sampleInitJSON).response
        = .WriteDataset (some "ds")) ∧
    ((DatasetHandlers.initHandler sampleInitStoring [] sampleInitMultipart).inits
        = [{ Name := "ds", Data := some ⟨"body.csv", "a,b"⟩, DataFilename := "body.csv" }] ∧
      (DatasetHandlers.initHandler sampleInitStoring [] sampleInitMultipart).state
        = [{ Peername := "me", Name := "ds", Path := "/ipfs/QmInit", Dataset := some "ds" }] ∧
      (DatasetHandlers.initHandler sampleInitStoring [] sampleInitMultipart).response
        = .WriteDataset (some "ds")) ∧
    (∃ p, (DatasetHandlers.initHandler sampleInitStoring [] sampleInitMultipart).inits = [p] ∧
      (DatasetHandlers.initHandler sampleInitStoring [] sampleInitMultipart).state
        = (sampleInitStoring.Init [] p).2 ∧
      (DatasetHandlers.initHandler sampleInitStoring [] sampleInitMultipart).response =
        (match (sampleInitStoring.Init [] p).1 with
          | .error err => .WriteErrResponse StatusInternalServerError err
          | .ok res => .WriteDataset res.Dataset) ∧
      p.Peername = sampleInitMultipart.FormValue "peername" ∧
      p.URL = sampleInitMultipart.FormValue "url" ∧
      p.Name = sampleInitMultipart.FormValue "name" ∧
      (∀ filename content, sampleInitMultipart.FormFile "file" = .file filename content →
        p.Data = some ⟨filename, content⟩ ∧ p.DataFilename = filename) ∧
      (∀ filename content, sampleInitMultipart.FormFile "metadata" = .file filename content →
        p.Metadata = some ⟨filename, content⟩ ∧ p.MetadataFilename = filename) ∧
      (∀ filename content, sampleInitMultipart.FormFile "structure" = .file filename content →
        p.Structure = some ⟨filename, content⟩ ∧ p.StructureFilename = filename)) ∧
    ((∃ e, (DatasetHandlers.initHandler sampleInitStoring [] sampleInitJSONNoURL).response
          = .WriteErrResponse StatusBadRequest e) ∧
      (DatasetHandlers.initHandler sampleInitStoring [] sampleInitJSONNoURL).calls = [] ∧
      (DatasetHandlers.initHandler sampleInitStoring [] sampleInitJSONNoURL).state = []) ∧
    ((∃ e, (DatasetHandlers.initHandler sampleInitStoring [] sampleInitUrlencoded).response
          = .WriteErrResponse StatusBadRequest e) ∧
      (DatasetHandlers.initHandler sampleInitStoring [] sampleInitUrlencoded).calls = [] ∧
      (DatasetHandlers.initHandler sampleInitStoring [] sampleInitUrlencoded).state = []) :=
  ⟨((initHandler_json_needs_url sampleInitStoring [] sampleInitJSON).1 (by decide)).2.2
      { URL := "http://example.com/data.csv", Name := "ds" } (by decide) (by decide),
    ⟨by decide, by decide, by decide⟩,
    ((initHandler_json_needs_url sampleInitStoring [] sampleInitMultipart).2 (by decide)).1
      (fun err hf => by simp [sampleInitMultipart] at hf)
      (fun err hf => by simp [sampleInitMultipart] at hf)
      (fun err hf => by simp [sampleInitMultipart] at hf),
    ((initHandler_json_needs_url sampleInitStoring [] sampleInitJSONNoURL).1 (by decide)).2.1
      { Name := "ds" } (by decide) (by decide),
    ((initHandler_json_needs_url sampleInitStoring [] sampleInitUrlencoded).2 (by decide)).2
      (Or.inl ⟨.new "request Content-Type isn't multipart/form-data", by decide⟩)⟩

/-- C12, as stated, fails: for `GET /data/me/ds?all=true&limit=10` the form value `all` equals
`true`, and the parameters passed to `StructuredData` have `Limit = 10` and `All = false`. -/
theorem dataHandler_all_does_not_override :
    sampleDataAllLimit.FormValue "all" = "true" ∧
      (DatasetHandlers.dataHandler sampleData [] sampleDataAllLimit).reads
        = [{ Path := "/me/ds", Format := 1, Limit := 10, Offset := 0, All := false }] ∧
      ¬ (∀ (h : DataRequests (List DatasetRef)) (s : List DatasetRef) (r : Request),
          r.FormValue "all" = "true" →
          ∀ p ∈ (DatasetHandlers.dataHandler h s r).reads, p.All = true) := by
  refine ⟨by decide, by decide, ?_⟩
  intro hall
  have h1 := hall sampleData [] sampleDataAllLimit (by decide)
    { Path := "/me/ds", Format := 1, Limit := 10, Offset := 0, All := false } (by decide)
  revert h1
  decide

/-- C12 (amended): for every request (whose path is at least as long as `/data`), `dataHandler`
calls `StructuredData` once, with parameters built as follows: Limit is the parsed `limit`
parameter, or the default 100 when `ReqParamInt` fails; Offset is the parsed `offset` parameter,
or 0 when `ReqParamInt` fails; All is true exactly when the form value `all` equals `true` and
Limit is the default 100 and Offset is 0, so an explicit other limit or offset wins over
`all`. -/
theorem dataHandler_read_params {σ : Type} (h : DataRequests σ) (s : σ) (r : Request)
    (path : String) (hslice : sliceFrom r.Path "/data".length = some path) :
    ∃ p, (DatasetHandlers.dataHandler h s r).reads = [p] ∧
      p.Path = path ∧ p.Format = h.JSONDataFormat ∧
      (∀ n, h.ReqParamInt "limit" r = .ok n → p.Limit = n) ∧
      (∀ err, h.ReqParamInt "limit" r = .error err → p.Limit = 100) ∧
      (∀ n, h.ReqParamInt "offset" r = .ok n → p.Offset = n) ∧
      (∀ err, h.ReqParamInt "offset" r = .error err → p.Offset = 0) ∧
      (p.All = true ↔ r.FormValue "all" = "true" ∧ p.Limit = 100 ∧ p.Offset = 0) := by
  refine ⟨DatasetHandlers.dataParams h r path, ?_, rfl, rfl, ?_, ?_, ?_, ?_, ?_⟩
  · unfold DatasetHandlers.dataHandler
    rw [hslice]
    cases hsd : h.StructuredData s (DatasetHandlers.dataParams h r path) with
    | mk res s1 =>
      cases res with
      | error err => simp [hsd, DataServed.reads]
      | ok data =>
        cases hw : h.writePageError data r <;> simp [hsd, hw, DataServed.reads]
  · intro n hn
    simp [DatasetHandlers.dataParams, hn]
  · intro err hn
    simp [DatasetHandlers.dataParams, hn, defaultDataLimit]
  · intro n hn
    simp [DatasetHandlers.dataParams, hn]
  · intro err hn
    simp [DatasetHandlers.dataParams, hn]
  · simp [DatasetHandlers.dataParams, defaultDataLimit, and_assoc]

/-- Witness for C12: `GET /data/me/ds?all=true` reads with the default limit, offset 0 and
`All` set. -/
theorem dataHandler_read_params_witness :
    sliceFrom sampleDataAll.Path "/data".length = some "/me/ds" ∧
      (DatasetHandlers.dataHandler sampleData [] sampleDataAll).reads
        = [{ Path := "/me/ds", Format := 1, Limit := 100, Offset := 0, All := true }] ∧
      ∃ p, (DatasetHandlers.dataHandler sampleData [] sampleDataAll).reads = [p] ∧
        p.Path = "/me/ds" ∧ p.Format = sampleData.JSONDataFormat ∧
        (∀ n, sampleData.ReqParamInt "limit" sampleDataAll = .ok n → p.Limit = n) ∧
        (∀ err, sampleData.ReqParamInt "limit" sampleDataAll = .error err → p.Limit = 100) ∧
        (∀ n, sampleData.ReqParamInt "offset" sampleDataAll = .ok n → p.Offset = n) ∧
        (∀ err, sampleData.ReqParamInt "offset" sampleDataAll = .error err → p.Offset = 0) ∧
        (p.All = true ↔ sampleDataAll.FormValue "all" = "true" ∧ p.Limit = 100 ∧ p.Offset = 0) :=
  ⟨by decide, by decide,
    dataHandler_read_params sampleData [] sampleDataAll "/me/ds" (by decide)⟩

/-! ## Properties of `cmd/info.go`: what a run fetches -/

theorem gets_after {σ : Type} (evs : List CmdEvent) (r : CmdResult σ) :
    (r.after evs).gets = (⟨r.state, evs, r.outcome⟩ : CmdResult σ).gets ++ r.gets := by
  simp [CmdResult.after, CmdResult.gets, List.filterMap_append]

theorem warnings_after {σ : Type} (evs : List CmdEvent) (r : CmdResult σ) :
    (r.after evs).warnings = (⟨r.state, evs, r.outcome⟩ : CmdResult σ).warnings ++ r.warnings := by
  simp [CmdResult.after, CmdResult.warnings, List.filterMap_append]

theorem outcome_after {σ : Type} (evs : List CmdEvent) (r : CmdResult σ) :
    (r.after evs).outcome = r.outcome := rfl

theorem runRefs_fetches {σ : Type} (env : Requests σ) (o : InfoOptions) (refs : List String)
    (s : σ) (i : Nat) :
    (∀ ref ∈ (InfoOptions.runRefs env o s i refs).gets, env.IsPeerRef ref = false) ∧
      (InfoOptions.runRefs env o s i refs).gets <+: InfoOptions.nonPeerRefs env refs ∧
      (InfoOptions.runRefs env o s i refs).warnings <+: InfoOptions.peerOnly env refs ∧
      ((InfoOptions.runRefs env o s i refs).outcome = .returned none →
        (InfoOptions.runRefs env o s i refs).gets = InfoOptions.nonPeerRefs env refs ∧
          (InfoOptions.runRefs env o s i refs).warnings = InfoOptions.peerOnly env refs) := by
  induction refs generalizing s i with
  | nil =>
    simp [InfoOptions.runRefs, CmdResult.gets, CmdResult.warnings, InfoOptions.nonPeerRefs,
      InfoOptions.peerOnly]
  | cons refstr rest ih =>
    cases hp : env.ParseDatasetRef refstr with
    | error err =>
      simp [InfoOptions.runRefs, hp, CmdResult.gets, CmdResult.warnings]
    | ok ref =>
      cases hpeer : env.IsPeerRef ref with
      | true =>
        obtain ⟨h1, h2, h3, h4⟩ := ih s (i + 1)
        have hrun : InfoOptions.runRefs env o s i (refstr :: rest) =
            (InfoOptions.runRefs env o s (i + 1) rest).after
              [.printWarning "please specify a dataset for peer %s" ref.Peername] := by
          simp [InfoOptions.runRefs, hp, hpeer]
        have hn : InfoOptions.nonPeerRefs env (refstr :: rest)
            = InfoOptions.nonPeerRefs env rest := by
          simp [InfoOptions.nonPeerRefs, List.filterMap_cons, hp, hpeer]
        have hw : InfoOptions.peerOnly env (refstr :: rest)
            = ref.Peername :: InfoOptions.peerOnly env rest := by
          simp [InfoOptions.peerOnly, List.filterMap_cons, hp, hpeer]
        have hg : (InfoOptions.runRefs env o s i (refstr :: rest)).gets
            = (InfoOptions.runRefs env o s (i + 1) rest).gets := by
          rw [hrun, gets_after]; simp [CmdResult.gets]
        have hwa : (InfoOptions.runRefs env o s i (refstr :: rest)).warnings
            = ref.Peername :: (InfoOptions.runRefs env o s (i + 1) rest).warnings := by
          rw [hrun, warnings_after]; simp [CmdResult.warnings]
        have ho : (InfoOptions.runRefs env o s i (refstr :: rest)).outcome
            = (InfoOptions.runRefs env o s (i + 1) rest).outcome := by
          rw [hrun, outcome_after]
        rw [hg, hwa, ho, hn, hw]
        refine ⟨h1, h2, (List.prefix_cons_inj _).mpr h3, fun hout => ?_⟩
        obtain ⟨h5, h6⟩ := h4 hout
        exact ⟨h5, by rw [h6]⟩
      | false =>
        have hn : InfoOptions.nonPeerRefs env (refstr :: rest)
            = ref :: InfoOptions.nonPeerRefs env rest := by
          simp [InfoOptions.nonPeerRefs, List.filterMap_cons, hp, hpeer]
        have hw : InfoOptions.peerOnly env (refstr :: rest)
            = InfoOptions.peerOnly env rest := by
          simp [InfoOptions.peerOnly, List.filterMap_cons, hp, hpeer]
        cases hget : env.Get s ref with
        | mk res s1 =>
          cases res with
          | error err =>
            have hrun : InfoOptions.runRefs env o s i (refstr :: rest) =
                ⟨s1, [.Get ref (some err)], .exit err⟩ := by
              simp [InfoOptions.runRefs, hp, hpeer, hget]
            rw [hrun, hn]
            simp [CmdResult.gets, CmdResult.warnings, hpeer]
          | ok got =>
            obtain ⟨h1, h2, h3, h4⟩ := ih s1 (i + 1)
            by_cases hfmt : o.Format = ""
            · have hrun : InfoOptions.runRefs env o s i (refstr :: rest) =
                  (InfoOptions.runRefs env o s1 (i + 1) rest).after
                    [.Get ref none, .printDatasetRefInfo i got] := by
                simp [InfoOptions.runRefs, hp, hpeer, hget, hfmt]
              have hg : (InfoOptions.runRefs env o s i (refstr :: rest)).gets
                  = ref :: (InfoOptions.runRefs env o s1 (i + 1) rest).gets := by
                rw [hrun, gets_after]; simp [CmdResult.gets]
              have hwa : (InfoOptions.runRefs env o s i (refstr :: rest)).warnings
                  = (InfoOptions.runRefs env o s1 (i + 1) rest).warnings := by
                rw [hrun, warnings_after]; simp [CmdResult.warnings]
              have ho : (InfoOptions.runRefs env o s i (refstr :: rest)).outcome
                  = (InfoOptions.runRefs env o s1 (i + 1) rest).outcome := by
                rw [hrun, outcome_after]
              rw [hg, hwa, ho, hn, hw]
              refine ⟨?_, (List.prefix_cons_inj _).mpr h2, h3, fun hout => ?_⟩
              · intro x hx
                rcases List.mem_cons.mp hx with hx | hx
                · rw [hx]; exact hpeer
                · exact h1 x hx
              · obtain ⟨h5, h6⟩ := h4 hout
                exact ⟨by rw [h5], h6⟩
            · cases hm : env.MarshalIndent got.Dataset with
              | error err =>
                have hrun : InfoOptions.runRefs env o s i (refstr :: rest) =
                    ⟨s1, [.Get ref none], .returned (some err)⟩ := by
                  simp [InfoOptions.runRefs, hp, hpeer, hget, hfmt, hm]
                rw [hrun, hn]
                simp [CmdResult.gets, CmdResult.warnings, hpeer]
              | ok data =>
                have hrun : InfoOptions.runRefs env o s i (refstr :: rest) =
                    (InfoOptions.runRefs env o s1 (i + 1) rest).after
                      [.Get ref none, .Fprintf "%s" data] := by
                  simp [InfoOptions.runRefs, hp, hpeer, hget, hfmt, hm]
                have hg : (InfoOptions.runRefs env o s i (refstr :: rest)).gets
                    = ref :: (InfoOptions.runRefs env o s1 (i + 1) rest).gets := by
                  rw [hrun, gets_after]; simp [CmdResult.gets]
                have hwa : (InfoOptions.runRefs env o s i (refstr :: rest)).warnings
                    = (InfoOptions.runRefs env o s1 (i + 1) rest).warnings := by
                  rw [hrun, warnings_after]; simp [CmdResult.warnings]
                have ho : (InfoOptions.runRefs env o s i (refstr :: rest)).outcome
                    = (InfoOptions.runRefs env o s1 (i + 1) rest).outcome := by
                  rw [hrun, outcome_after]
                rw [hg, hwa, ho, hn, hw]
                refine ⟨?_, (List.prefix_cons_inj _).mpr h2, h3, fun hout => ?_⟩
                · intro x hx
                  rcases List.mem_cons.mp hx with hx | hx
                  · rw [hx]; exact hpeer
                  · exact h1 x hx
                · obtain ⟨h5, h6⟩ := h4 hout
                  exact ⟨by rw [h5], h6⟩

theorem nonPeerRefs_cons_peer {σ : Type} (env : Requests σ) (a : String) (ref : DatasetRef)
    (l : List String) (hp : env.ParseDatasetRef a = .ok ref) (hpeer : env.IsPeerRef ref = true) :
    InfoOptions.nonPeerRefs env (a :: l) = InfoOptions.nonPeerRefs env l ∧
      InfoOptions.peerOnly env (a :: l) = ref.Peername :: InfoOptions.peerOnly env l := by
  simp [InfoOptions.nonPeerRefs, InfoOptions.peerOnly, List.filterMap_cons, hp, hpeer]

theorem nonPeerRefs_cons_other {σ : Type} (env : Requests σ) (a : String) (ref : DatasetRef)
    (l : List String) (hp : env.ParseDatasetRef a = .ok ref)
    (hpeer : env.IsPeerRef ref = false) :
    InfoOptions.nonPeerRefs env (a :: l) = ref :: InfoOptions.nonPeerRefs env l ∧
      InfoOptions.peerOnly env (a :: l) = InfoOptions.peerOnly env l := by
  simp [InfoOptions.nonPeerRefs, InfoOptions.peerOnly, List.filterMap_cons, hp, hpeer]

theorem runsUntilFirstFailure_after_warning {σ : Type} (env : Requests σ) (o : InfoOptions)
    (s : σ) (a : String) (ref : DatasetRef) (rest : List String) (r r1 : CmdResult σ)
    (hp : env.ParseDatasetRef a = .ok ref) (hpeer : env.IsPeerRef ref = true)
    (hrest : InfoOptions.RunsUntilFirstFailure env o s rest r1)
    (hout : r.outcome = r1.outcome) (hstate : r.state = r1.state) (hgets : r.gets = r1.gets)
    (hwarn : r.warnings = ref.Peername :: r1.warnings) :
    InfoOptions.RunsUntilFirstFailure env o s (a :: rest) r := by
  obtain ⟨done, s1, hall, hfetch, hw, hcases⟩ := hrest
  have hc := nonPeerRefs_cons_peer env a ref done hp hpeer
  refine ⟨a :: done, s1, ?_, by rw [hc.1]; exact hfetch, by rw [hwarn, hw, hc.2], ?_⟩
  · intro b hb
    rcases List.mem_cons.mp hb with hb | hb
    · exact ⟨ref, by rw [hb]; exact hp⟩
    · exact hall b hb
  · rw [hout, hstate, hgets, hc.1]
    rcases hcases with ⟨h1, h2, h3, h4⟩ | ⟨b, tl, err, h1, h2, h3, h4, h5⟩ |
        ⟨b, tl, ref1, err, s2, h1, h2, h3, h4, h5, h6, h7⟩ |
        ⟨b, tl, ref1, res, err, s2, h1, h2, h3, h4, h5, h6, h7, h8, h9⟩
    · exact Or.inl ⟨by rw [h1], h2, h3, h4⟩
    · exact Or.inr (Or.inl ⟨b, tl, err, by rw [h1]; rfl, h2, h3, h4, h5⟩)
    · exact Or.inr (Or.inr (Or.inl ⟨b, tl, ref1, err, s2, by rw [h1]; rfl, h2, h3, h4, h5, h6,
        h7⟩))
    · exact Or.inr (Or.inr (Or.inr ⟨b, tl, ref1, res, err, s2, by rw [h1]; rfl, h2, h3, h4, h5,
        h6, h7, h8, h9⟩))

theorem runsUntilFirstFailure_after_get {σ : Type} (env : Requests σ) (o : InfoOptions)
    (s s1 : σ) (a : String) (ref res : DatasetRef) (rest : List String) (r r1 : CmdResult σ)
    (hp : env.ParseDatasetRef a = .ok ref) (hpeer : env.IsPeerRef ref = false)
    (hget : env.Get s ref = (.ok res, s1))
    (henc : o.Format = "" ∨ ∃ data, env.MarshalIndent res.Dataset = .ok data)
    (hrest : InfoOptions.RunsUntilFirstFailure env o s1 rest r1)
    (hout : r.outcome = r1.outcome) (hstate : r.state = r1.state)
    (hgets : r.gets = ref :: r1.gets) (hwarn : r.warnings = r1.warnings) :
    InfoOptions.RunsUntilFirstFailure env o s (a :: rest) r := by
  obtain ⟨done, s2, hall, hfetch, hw, hcases⟩ := hrest
  have hc := nonPeerRefs_cons_other env a ref done hp hpeer
  have hfetch1 : InfoOptions.fetchAll env o s (ref :: InfoOptions.nonPeerRefs env done)
      = some s2 := by
    rcases henc with hfmt | ⟨data, hdata⟩
    · simp [InfoOptions.fetchAll, hget, hfmt, hfetch]
    · by_cases hfmt : o.Format = ""
      · simp [InfoOptions.fetchAll, hget, hfmt, hfetch]
      · simp [InfoOptions.fetchAll, hget, hfmt, hdata, hfetch]
  refine ⟨a :: done, s2, ?_, by rw [hc.1]; exact hfetch1, by rw [hwarn, hw, hc.2], ?_⟩
  · intro b hb
    rcases List.mem_cons.mp hb with hb | hb
    · exact ⟨ref, by rw [hb]; exact hp⟩
    · exact hall b hb
  · rw [hout, hstate, hgets, hc.1]
    rcases hcases with ⟨h1, h2, h3, h4⟩ | ⟨b, tl, err, h1, h2, h3, h4, h5⟩ |
        ⟨b, tl, ref1, err, s3, h1, h2, h3, h4, h5, h6, h7⟩ |
        ⟨b, tl, ref1, res1, err, s3, h1, h2, h3, h4, h5, h6, h7, h8, h9⟩
    · exact Or.inl ⟨by rw [h1], h2, h3, by rw [h4]⟩
    · exact Or.inr (Or.inl ⟨b, tl, err, by rw [h1]; rfl, h2, h3, h4, by rw [h5]⟩)
    · exact Or.inr (Or.inr (Or.inl ⟨b, tl, ref1, err, s3, by rw [h1]; rfl, h2, h3, h4, h5, h6,
        by rw [h7]; rfl⟩))
    · exact Or.inr (Or.inr (Or.inr ⟨b, tl, ref1, res1, err, s3, by rw [h1]; rfl, h2, h3, h4,
        h5, h6, h7, h8, by rw [h9]; rfl⟩))

theorem runRefs_runs_until_first_failure {σ : Type} (env : Requests σ) (o : InfoOptions)
    (refs : List String) (s : σ) (i : Nat) :
    InfoOptions.RunsUntilFirstFailure env o s refs (InfoOptions.runRefs env o s i refs) := by
  induction refs generalizing s i with
  | nil =>
    exact ⟨[], s, by simp, rfl, rfl, Or.inl ⟨rfl, rfl, rfl, rfl⟩⟩
  | cons refstr rest ih =>
    cases hp : env.ParseDatasetRef refstr with
    | error err =>
      refine ⟨[], s, by simp, rfl, ?_, Or.inr (Or.inl ⟨refstr, rest, err, rfl, hp, ?_⟩)⟩
      · simp [InfoOptions.runRefs, hp, CmdResult.warnings, InfoOptions.peerOnly]
      · simp [InfoOptions.runRefs, hp, CmdResult.gets, InfoOptions.nonPeerRefs]
    | ok ref =>
      cases hpeer : env.IsPeerRef ref with
      | true =>
        have hrun : InfoOptions.runRefs env o s i (refstr :: rest) =
            (InfoOptions.runRefs env o s (i + 1) rest).after
              [.printWarning "please specify a dataset for peer %s" ref.Peername] := by
          simp [InfoOptions.runRefs, hp, hpeer]
        refine runsUntilFirstFailure_after_warning env o s refstr ref rest _ _ hp hpeer
          (ih s (i + 1)) ?_ ?_ ?_ ?_
        · rw [hrun]; rfl
        · rw [hrun]; rfl
        · rw [hrun, gets_after]; simp [CmdResult.gets]
        · rw [hrun, warnings_after]; simp [CmdResult.warnings]
      | false =>
        cases hget : env.Get s ref with
        | mk got s1 =>
          cases got with
          | error err =>
            refine ⟨[], s, by simp, rfl, ?_,
              Or.inr (Or.inr (Or.inl ⟨refstr, rest, ref, err, s1, rfl, hp, hpeer, hget, ?_⟩))⟩
            · simp [InfoOptions.runRefs, hp, hpeer, hget, CmdResult.warnings,
                InfoOptions.peerOnly]
            · simp [InfoOptions.runRefs, hp, hpeer, hget, CmdResult.gets,
                InfoOptions.nonPeerRefs]
          | ok res =>
            by_cases hfmt : o.Format = ""
            · have hrun : InfoOptions.runRefs env o s i (refstr :: rest) =
                  (InfoOptions.runRefs env o s1 (i + 1) rest).after
                    [.Get ref none, .printDatasetRefInfo i res] := by
                simp [InfoOptions.runRefs, hp, hpeer, hget, hfmt]
              refine runsUntilFirstFailure_after_get env o s s1 refstr ref res rest _ _ hp
                hpeer hget (Or.inl hfmt) (ih s1 (i + 1)) ?_ ?_ ?_ ?_
              · rw [hrun]; rfl
              · rw [hrun]; rfl
              · rw [hrun, gets_after]; simp [CmdResult.gets]
              · rw [hrun, warnings_after]; simp [CmdResult.warnings]
            · cases hm : env.MarshalIndent res.Dataset with
              | error err =>
                refine ⟨[], s, by simp, rfl, ?_,
                  Or.inr (Or.inr (Or.inr ⟨refstr, rest, ref, res, err, s1, rfl, hp, hpeer,
                    hget, hfmt, hm, ?_⟩))⟩
                · simp [InfoOptions.runRefs, hp, hpeer, hget, hfmt, hm, CmdResult.warnings,
                    InfoOptions.peerOnly]
                · simp [InfoOptions.runRefs, hp, hpeer, hget, hfmt, hm, CmdResult.gets,
                    InfoOptions.nonPeerRefs]
              | ok data =>
                have hrun : InfoOptions.runRefs env o s i (refstr :: rest) =
                    (InfoOptions.runRefs env o s1 (i + 1) rest).after
                      [.Get ref none, .Fprintf "%s" data] := by
                  simp [InfoOptions.runRefs, hp, hpeer, hget, hfmt, hm]
                refine runsUntilFirstFailure_after_get env o s s1 refstr ref res rest _ _ hp
                  hpeer hget (Or.inr ⟨data, hm⟩) (ih s1 (i + 1)) ?_ ?_ ?_ ?_
                · rw [hrun]; rfl
                · rw [hrun]; rfl
                · rw [hrun, gets_after]; simp [CmdResult.gets]
                · rw [hrun, warnings_after]; simp [CmdResult.warnings]

theorem fetchAll_append {σ : Type} (env : Requests σ) (o : InfoOptions) (l1 l2 : List DatasetRef)
    (s : σ) :
    InfoOptions.fetchAll env o s (l1 ++ l2) =
      (InfoOptions.fetchAll env o s l1).bind (fun s1 => InfoOptions.fetchAll env o s1 l2) := by
  induction l1 generalizing s with
  | nil => simp [InfoOptions.fetchAll]
  | cons ref refs ih =>
    simp only [List.cons_append, InfoOptions.fetchAll]
    cases hget : env.Get s ref with
    | mk got s1 =>
      cases got with
      | error err => simp
      | ok res =>
        by_cases hfmt : o.Format = ""
        · simp [hfmt, ih]
        · cases hm : env.MarshalIndent res.Dataset with
          | error err => simp [hfmt, hm]
          | ok data => simp [hfmt, hm, ih]

theorem nonPeerRefs_append {σ : Type} (env : Requests σ) (l1 l2 : List String) :
    InfoOptions.nonPeerRefs env (l1 ++ l2) =
      InfoOptions.nonPeerRefs env l1 ++ InfoOptions.nonPeerRefs env l2 := by
  simp [InfoOptions.nonPeerRefs, List.filterMap_append]

theorem returns_nil_iff_of_runs {σ : Type} (env : Requests σ) (o : InfoOptions) (s : σ)
    (refs : List String) (r : CmdResult σ)
    (hr : InfoOptions.RunsUntilFirstFailure env o s refs r) :
    r.outcome = .returned none ↔
      (∀ a ∈ refs, ∃ ref, env.ParseDatasetRef a = .ok ref) ∧
        ∃ s1, InfoOptions.fetchAll env o s (InfoOptions.nonPeerRefs env refs) = some s1 := by
  obtain ⟨done, s1, hall, hfetch, hw, hcases⟩ := hr
  rcases hcases with ⟨h1, h2, h3, h4⟩ | ⟨b, tl, err, h1, h2, h3, h4, h5⟩ |
      ⟨b, tl, ref1, err, s2, h1, h2, h3, h4, h5, h6, h7⟩ |
      ⟨b, tl, ref1, res, err, s2, h1, h2, h3, h4, h5, h6, h7, h8, h9⟩
  · rw [h1]
    exact ⟨fun _ => ⟨hall, s1, hfetch⟩, fun _ => h2⟩
  · constructor
    · intro hnil
      rw [h3] at hnil
      cases hnil
    · rintro ⟨hparse, _⟩
      obtain ⟨ref, href⟩ := hparse b (by rw [h1]; simp)
      rw [h2] at href
      cases href
  · constructor
    · intro hnil
      rw [h5] at hnil
      cases hnil
    · rintro ⟨_, s3, hf⟩
      rw [h1, nonPeerRefs_append, fetchAll_append, hfetch,
        (nonPeerRefs_cons_other env b ref1 tl h2 h3).1] at hf
      simp [InfoOptions.fetchAll, h4] at hf
  · constructor
    · intro hnil
      rw [h7] at hnil
      cases hnil
    · rintro ⟨_, s3, hf⟩
      rw [h1, nonPeerRefs_append, fetchAll_append, hfetch,
        (nonPeerRefs_cons_other env b ref1 tl h2 h3).1] at hf
      simp [InfoOptions.fetchAll, h4, h5, h6] at hf

theorem bad_format_no_events {σ : Type} (env : Requests σ) (o : InfoOptions) (s : σ)
    (hbad : ¬ (o.Format = "" ∨ env.ParseDataFormatString o.Format = .ok env.JSONDataFormat)) :
    (InfoOptions.Run env o s).events = [] ∧
      (InfoOptions.Run env o s).outcome ≠ .returned none := by
  have hf : o.Format ≠ "" := fun h => hbad (Or.inl h)
  unfold InfoOptions.Run
  cases hparse : env.ParseDataFormatString o.Format with
  | error err => simp [hf, hparse]
  | ok format =>
    have hj : format ≠ env.JSONDataFormat := by
      intro h
      exact hbad (Or.inr (by rw [hparse, h]))
    simp [hf, hparse, hj]

/-- C13, as stated, fails: in `qri info me/none me/ds` neither reference is peer-only, but `Get`
fails on `me/none`, `ExitIfErr` ends the process, and `me/ds` is never fetched. -/
theorem InfoOptions.Run_stops_at_failed_get :
    InfoOptions.nonPeerRefs sampleRequests ["me/none", "me/ds"]
        = [{ Peername := "me", Name := "none" }, { Peername := "me", Name := "ds" }] ∧
      (InfoOptions.Run sampleRequests { Refs := ["me/none", "me/ds"] } sampleRepo).gets
        = [{ Peername := "me", Name := "none" }] ∧
      (InfoOptions.Run sampleRequests { Refs := ["me/none", "me/ds"] } sampleRepo).outcome
        = .exit (.new "repo: not found") ∧
      ¬ (∀ (env : Requests (List DatasetRef)) (o : InfoOptions) (s : List DatasetRef),
          (InfoOptions.Run env o s).gets = InfoOptions.nonPeerRefs env o.Refs) := by
  refine ⟨by decide, by decide, by decide, ?_⟩
  intro hall
  have h1 := hall sampleRequests { Refs := ["me/none", "me/ds"] } sampleRepo
  revert h1
  decide

/-- C13 (amended): `InfoOptions.Run` never calls `Get` for a peer-only reference.  With a valid
format, the run goes through the references in argument order up to the first one that fails to
parse, whose `Get` fails (there `ExitIfErr` ends the process) or whose dataset cannot be
encoded, and through all of them when there is none: for the references before that point it
calls `Get` exactly for those that are not peer-only, in argument order, and for each peer-only
one it prints the warning, makes no `Get` call and continues with the remaining references.  It
returns nil exactly when every reference parses and every fetch of a reference that is not
peer-only succeeds, and then `Get` has been called exactly for the references that are not
peer-only and the warning printed exactly for the peer-only ones.  In every run the fetched
references are an initial part of the references that are not peer-only. -/
theorem InfoOptions.Run_fetches_non_peer_refs {σ : Type} (env : Requests σ) (o : InfoOptions)
    (s : σ) :
    (∀ ref ∈ (InfoOptions.Run env o s).gets, env.IsPeerRef ref = false) ∧
      (InfoOptions.Run env o s).gets <+: InfoOptions.nonPeerRefs env o.Refs ∧
      (InfoOptions.Run env o s).warnings <+: InfoOptions.peerOnly env o.Refs ∧
      ((InfoOptions.Run env o s).outcome = .returned none →
        (InfoOptions.Run env o s).gets = InfoOptions.nonPeerRefs env o.Refs ∧
          (InfoOptions.Run env o s).warnings = InfoOptions.peerOnly env o.Refs) ∧
      (o.Format = "" ∨ env.ParseDataFormatString o.Format = .ok env.JSONDataFormat →
        InfoOptions.RunsUntilFirstFailure env o s o.Refs (InfoOptions.Run env o s) ∧
          ((InfoOptions.Run env o s).outcome = .returned none ↔
            (∀ a ∈ o.Refs, ∃ ref, env.ParseDatasetRef a = .ok ref) ∧
              ∃ s1, InfoOptions.fetchAll env o s (InfoOptions.nonPeerRefs env o.Refs)
                = some s1)) := by
  have hloop := runRefs_fetches env o o.Refs s 0
  have hruns := runRefs_runs_until_first_failure env o o.Refs s 0
  have hiff := returns_nil_iff_of_runs env o s o.Refs _ hruns
  have hrun : (o.Format = "" ∨ env.ParseDataFormatString o.Format = .ok env.JSONDataFormat) →
      InfoOptions.Run env o s = InfoOptions.runRefs env o s 0 o.Refs := by
    intro hgood
    rcases hgood with hf | hparse
    · simp [InfoOptions.Run, hf]
    · by_cases hf : o.Format = ""
      · simp [InfoOptions.Run, hf]
      · simp [InfoOptions.Run, hf, hparse]
  refine ⟨?_, ?_, ?_, ?_, ?_⟩
  · by_cases hgood : o.Format = "" ∨
        env.ParseDataFormatString o.Format = .ok env.JSONDataFormat
    · rw [hrun hgood]; exact hloop.1
    · have hev := bad_format_no_events env o s hgood
      simp [CmdResult.gets, hev.1]
  · by_cases hgood : o.Format = "" ∨
        env.ParseDataFormatString o.Format = .ok env.JSONDataFormat
    · rw [hrun hgood]; exact hloop.2.1
    · have hev := bad_format_no_events env o s hgood
      simp [CmdResult.gets, hev.1]
  · by_cases hgood : o.Format = "" ∨
        env.ParseDataFormatString o.Format = .ok env.JSONDataFormat
    · rw [hrun hgood]; exact hloop.2.2.1
    · have hev := bad_format_no_events env o s hgood
      simp [CmdResult.warnings, hev.1]
  · by_cases hgood : o.Format = "" ∨
        env.ParseDataFormatString o.Format = .ok env.JSONDataFormat
    · rw [hrun hgood]; exact hloop.2.2.2
    · have hev := bad_format_no_events env o s hgood
      intro hnil
      exact absurd hnil hev.2
  · intro hgood
    rw [hrun hgood]
    exact ⟨hruns, hiff⟩

/-- Witness for C13: in `qri info me me/ds` both references parse and the one fetch succeeds,
so the run returns nil: it warns about the peer `me`, then goes on and fetches `me/ds`. -/
theorem InfoOptions.Run_fetches_non_peer_refs_witness :
    (InfoOptions.Run sampleRequests { Refs := ["me", "me/ds"] } sampleRepo).events
        = [.printWarning "please specify a dataset for peer %s" "me",
            .Get { Peername := "me", Name := "ds" } none,
            .printDatasetRefInfo 1 { Peername := "me", Name := "ds", Path := "/ipfs/QmUNLL" }] ∧
      InfoOptions.nonPeerRefs sampleRequests ["me", "me/ds"]
        = [{ Peername := "me", Name := "ds" }] ∧
      InfoOptions.peerOnly sampleRequests ["me", "me/ds"] = ["me"] ∧
      (InfoOptions.Run sampleRequests { Refs := ["me", "me/ds"] } sampleRepo).outcome
        = .returned none ∧
      ((InfoOptions.Run sampleRequests { Refs := ["me", "me/ds"] } sampleRepo).gets
          = InfoOptions.nonPeerRefs sampleRequests ["me", "me/ds"] ∧
        (InfoOptions.Run sampleRequests { Refs := ["me", "me/ds"] } sampleRepo).warnings
          = InfoOptions.peerOnly sampleRequests ["me", "me/ds"]) :=
  ⟨by decide, by decide, by decide,
    ((InfoOptions.Run_fetches_non_peer_refs sampleRequests { Refs := ["me", "me/ds"] }
      sampleRepo).2.2.2.2 (Or.inl rfl)).2.mpr
      ⟨by
        intro a ha
        simp only [List.mem_cons, List.mem_singleton, List.not_mem_nil, or_false] at ha
        rcases ha with rfl | rfl
        · exact ⟨{ Peername := "me", Name := "" }, by decide⟩
        · exact ⟨{ Peername := "me", Name := "ds" }, by decide⟩,
        sampleRepo, by decide⟩,
    (InfoOptions.Run_fetches_non_peer_refs sampleRequests { Refs := ["me", "me/ds"] }
      sampleRepo).2.2.2.1 (by decide)⟩

/-! ## Properties of `cmd/get.go`: `Run` -/

theorem parseRefs_ok_of_all_parse {DR σ : Type} (env : GetRequests DR σ) (refs : List String)
    (h : ∀ a ∈ refs, ∃ ref, env.ParseDatasetRef a = .ok ref) :
    ∃ parsed, GetOptions.parseRefs env refs = .ok parsed := by
  induction refs with
  | nil => exact ⟨[], rfl⟩
  | cons a rest ih =>
    obtain ⟨ref, href⟩ := h a (List.mem_cons_self a rest)
    obtain ⟨parsed, hparsed⟩ := ih (fun b hb => h b (List.mem_cons_of_mem a hb))
    exact ⟨ref :: parsed, by simp [GetOptions.parseRefs, href, hparsed]⟩

theorem parseRefs_first_error {DR σ : Type} (env : GetRequests DR σ) (pre : List String)
    (a : String) (post : List String) (err : Error)
    (hpre : ∀ b ∈ pre, ∃ ref, env.ParseDatasetRef b = .ok ref)
    (ha : env.ParseDatasetRef a = .error err) :
    GetOptions.parseRefs env (pre ++ a :: post) = .error err := by
  induction pre with
  | nil => simp [GetOptions.parseRefs, ha]
  | cons b rest ih =>
    obtain ⟨ref, href⟩ := hpre b (List.mem_cons_self b rest)
    have hrest := ih (fun c hc => hpre c (List.mem_cons_of_mem b hc))
    simp [GetOptions.parseRefs, href, hrest]

/-- C14: the references of `qri get` do not influence its request.  Two `GetOptions` that agree
on Path, Format and Concise (and hold the same request handle) and whose Refs all parse give the
same run: the same `Select` request, the same output written, the same result.  Whenever all
Refs parse, the one `Select` request carries exactly Path, Format and Concise.  When some
reference fails to parse, `Run` returns the parse error of the first such reference, and
neither `Select` nor a write happens. -/
theorem GetOptions.Run_ignores_refs {DR σ : Type} (env : GetRequests DR σ) (s : σ) :
    (∀ o1 o2 : GetOptions DR,
        o1.Path = o2.Path → o1.Format = o2.Format → o1.Concise = o2.Concise →
        o1.DatasetRequests = o2.DatasetRequests →
        (∀ a ∈ o1.Refs, ∃ ref, env.ParseDatasetRef a = .ok ref) →
        (∀ a ∈ o2.Refs, ∃ ref, env.ParseDatasetRef a = .ok ref) →
        GetOptions.Run env o1 s = GetOptions.Run env o2 s) ∧
      (∀ o : GetOptions DR, (∀ a ∈ o.Refs, ∃ ref, env.ParseDatasetRef a = .ok ref) →
        (GetOptions.Run env o s).selects
          = [{ Path := o.Path, Format := o.Format, Concise := o.Concise }]) ∧
      (∀ (o : GetOptions DR) (pre : List String) (a : String) (post : List String)
        (err : Error), o.Refs = pre ++ a :: post →
        (∀ b ∈ pre, ∃ ref, env.ParseDatasetRef b = .ok ref) →
        env.ParseDatasetRef a = .error err →
        GetOptions.Run env o s = ⟨s, [], some err⟩) := by
  refine ⟨?_, ?_, ?_⟩
  · intro o1 o2 hpath hformat hconcise hhandle h1 h2
    obtain ⟨p1, hp1⟩ := parseRefs_ok_of_all_parse env o1.Refs h1
    obtain ⟨p2, hp2⟩ := parseRefs_ok_of_all_parse env o2.Refs h2
    simp only [GetOptions.Run, hp1, hp2, hpath, hformat, hconcise, hhandle]
  · intro o h1
    obtain ⟨p1, hp1⟩ := parseRefs_ok_of_all_parse env o.Refs h1
    simp only [GetOptions.Run, hp1]
    cases hsel : env.Select o.DatasetRequests s
        { Path := o.Path, Format := o.Format, Concise := o.Concise } with
    | mk res s1 => cases res <;> simp [GetResult.selects]
  · intro o pre a post err hrefs hpre ha
    have herr := parseRefs_first_error env pre a post err hpre ha
    simp [GetOptions.Run, hrefs, herr]

/-- Witness for C14: `qri get body me/ds` and `qri get body me/ds you/other` run alike, and
`qri get body me/ds ""` returns the parse error without a request. -/
theorem GetOptions.Run_ignores_refs_witness :
    GetOptions.Run sampleGetRequests { Refs := ["me/ds"], Path := "body", Format := "yaml" }
        sampleRepo
      = GetOptions.Run sampleGetRequests
          { Refs := ["me/ds", "you/other"], Path := "body", Format := "yaml" } sampleRepo ∧
      (GetOptions.Run sampleGetRequests { Refs := ["me/ds"], Path := "body", Format := "yaml" }
        sampleRepo).written = ["body as yaml"] ∧
      GetOptions.Run sampleGetRequests { Refs := ["me/ds", ""], Path := "body", Format := "yaml" }
          sampleRepo
        = ⟨sampleRepo, [], some (.new "cannot parse empty string as dataset reference")⟩ :=
  ⟨(GetOptions.Run_ignores_refs sampleGetRequests sampleRepo).1
      { Refs := ["me/ds"], Path := "body", Format := "yaml" }
      { Refs := ["me/ds", "you/other"], Path := "body", Format := "yaml" } rfl rfl rfl rfl
      (by
        intro a ha
        simp only [List.mem_singleton] at ha
        subst ha
        exact ⟨{ Peername := "me", Name := "ds" }, by decide⟩)
      (by
        intro a ha
        simp only [List.mem_cons, List.mem_singleton, List.not_mem_nil, or_false] at ha
        rcases ha with rfl | rfl
        · exact ⟨{ Peername := "me", Name := "ds" }, by decide⟩
        · exact ⟨{ Peername := "you", Name := "other" }, by decide⟩),
    by decide,
    (GetOptions.Run_ignores_refs sampleGetRequests sampleRepo).2.2
      { Refs := ["me/ds", ""], Path := "body", Format := "yaml" } ["me/ds"] "" []
      (.new "cannot parse empty string as dataset reference") rfl
      (by
        intro b hb
        simp only [List.mem_singleton] at hb
        subst hb
        exact ⟨{ Peername := "me", Name := "ds" }, by decide⟩)
      (by decide)⟩

/-! ## Properties of `cmd/qri.go` -/

theorem init_of_initialized (w : InitWorld) (o : QriOptions) (h : o.initialized = true) :
    QriOptions.init w o = ⟨o, none, []⟩ := by
  simp [QriOptions.init, h]

theorem initialized_after_init (w : InitWorld) (o : QriOptions) :
    (QriOptions.init w o).options.initialized = true := by
  unfold QriOptions.init
  by_cases h : o.initialized = true
  · simp [h]
  · simp [h]

theorem initRepo_first_step (w : InitWorld) (o : QriOptions) (cfg : config.Config)
    (cfgPath : String) (first : InitStep) (steps : List InitStep) :
    (QriOptions.initRepo w o cfg cfgPath (first :: steps)).steps.head? = some first := by
  unfold QriOptions.initRepo
  split_ifs
  · simp
  · cases hfs : w.NewFilestore o.ipfsFsPath with
    | error e => simp [hfs]
    | ok fs =>
      cases hpro : w.NewProfile cfg.Profile with
      | error e => simp [hfs, hpro]
      | ok pro => simp [hfs, hpro]

theorem initBody_first_step (w : InitWorld) (o : QriOptions) :
    (QriOptions.initBody w o).steps.head?
      = some (.setConfigFilepath (w.Join o.qriRepoPath "config.yaml")) := by
  unfold QriOptions.initBody
  cases hload : w.LoadConfig (w.Join o.qriRepoPath "config.yaml") with
  | error err => simp [hload]
  | ok cfg =>
    by_cases hrpc : cfg.RPC.Enabled = true
    · cases hdial : w.Dial (":" ++ toString cfg.RPC.Port) with
      | error e => simp [hload, hrpc, hdial, initRepo_first_step]
      | ok conn => simp [hload, hrpc, hdial]
    · simp [hload, hrpc, initRepo_first_step]

/-- C15: the body of `init` runs at most once.  After any call of `init` the `sync.Once` is
spent; a call on options whose `Once` is spent runs no step of the body, changes nothing and
returns a nil error; the call that does run the body returns the error of the body.  So after a
first call, however it ended, every later call of `init` returns nil without a step, `Config`
returns the stored config with a nil error and `DatasetRequests` returns a handle built from the
stored repo, rpc client and node with a nil error; when the first call failed in `LoadConfig`
the stored config and repo are still what they were before (nil on fresh options). -/
theorem QriOptions.init_runs_body_once (w : InitWorld) (o : QriOptions) :
    (QriOptions.init w o).options.initialized = true ∧
      (o.initialized = true → QriOptions.init w o = ⟨o, none, []⟩) ∧
      (o.initialized = false →
        (QriOptions.init w o).err = (QriOptions.initBody w o).err ∧
          (QriOptions.init w o).steps = (QriOptions.initBody w o).steps ∧
          (QriOptions.init w o).steps ≠ []) ∧
      (∀ n : Nat,
        QriOptions.init w
            ((fun x => (QriOptions.init w x).options)^[n] (QriOptions.init w o).options)
          = ⟨(QriOptions.init w o).options, none, []⟩) ∧
      QriOptions.Config w (QriOptions.init w o).options
        = ((QriOptions.init w o).options, (QriOptions.init w o).options.config, none) ∧
      QriOptions.DatasetRequests w (QriOptions.init w o).options
        = ((QriOptions.init w o).options,
            some ⟨(QriOptions.init w o).options.repo, (QriOptions.init w o).options.rpc,
              (QriOptions.init w o).options.node⟩, none) ∧
      (∀ err, o.initialized = false →
        w.LoadConfig (w.Join o.qriRepoPath "config.yaml") = .error err →
        (QriOptions.init w o).err = some err ∧
          (QriOptions.init w o).options.config = o.config ∧
          (QriOptions.init w o).options.repo = o.repo) := by
  have hdone := initialized_after_init w o
  have hagain := init_of_initialized w (QriOptions.init w o).options hdone
  refine ⟨hdone, init_of_initialized w o, ?_, ?_, ?_, ?_, ?_⟩
  · intro hfresh
    refine ⟨by simp [QriOptions.init, hfresh], by simp [QriOptions.init, hfresh], ?_⟩
    have hhead := initBody_first_step w o
    intro hnil
    simp only [QriOptions.init, hfresh, Bool.false_eq_true, if_false] at hnil
    rw [hnil] at hhead
    cases hhead
  · intro n
    have hfix : (fun x => (QriOptions.init w x).options) (QriOptions.init w o).options
        = (QriOptions.init w o).options := by
      simp only [hagain]
    rw [Function.iterate_fixed hfix n]
    exact hagain
  · simp [QriOptions.Config, hagain]
  · simp [QriOptions.DatasetRequests, hagain]
  · intro err hfresh hload
    simp [QriOptions.init, hfresh, QriOptions.initBody, hload]

/-- Witness for C15: with no config file under `/none`, the first `init` fails in `LoadConfig`;
the second `init` returns nil, `Config` returns a nil config with a nil error, and
`DatasetRequests` returns a handle built from a nil repo with a nil error. -/
theorem QriOptions.init_runs_body_once_witness :
    (QriOptions.init sampleWorld (NewQriOptions "/none" "/ipfs")).err
        = some (.new "open config.yaml: no such file or directory") ∧
      QriOptions.init sampleWorld (QriOptions.init sampleWorld (NewQriOptions "/none" "/ipfs")).options
        = ⟨{ NewQriOptions "/none" "/ipfs" with initialized := true }, none, []⟩ ∧
      QriOptions.Config sampleWorld
          (QriOptions.init sampleWorld (NewQriOptions "/none" "/ipfs")).options
        = ({ NewQriOptions "/none" "/ipfs" with initialized := true }, none, none) ∧
      QriOptions.DatasetRequests sampleWorld
          (QriOptions.init sampleWorld (NewQriOptions "/none" "/ipfs")).options
        = ({ NewQriOptions "/none" "/ipfs" with initialized := true },
            some ⟨none, none, none⟩, none) ∧
      ((QriOptions.init sampleWorld (NewQriOptions "/none" "/ipfs")).err
          = some (.new "open config.yaml: no such file or directory") ∧
        (QriOptions.init sampleWorld (NewQriOptions "/none" "/ipfs")).options.config
          = (NewQriOptions "/none" "/ipfs").config ∧
        (QriOptions.init sampleWorld (NewQriOptions "/none" "/ipfs")).options.repo
          = (NewQriOptions "/none" "/ipfs").repo) :=
  ⟨by decide, by decide, by decide, by decide,
    (QriOptions.init_runs_body_once sampleWorld (NewQriOptions "/none" "/ipfs")).2.2.2.2.2.2
      (.new "open config.yaml: no such file or directory") (by decide) (by decide)⟩

end Qri
